import Mathlib

/-!
Verification of the relay-server core of unity-mcp-client.

The Python sources under relay/ (protocol.py, instance_registry.py,
request_cache.py, server.py) are embedded shallowly: pure fragments become
Lean functions, stateful methods become explicit state-passing functions,
time.time() becomes an explicit clock argument, and asyncio suspension
points are made explicit where a claim is about them. Machine integers are
Nat/Int; byte streams are lists of Nat values below 256.
-/

namespace Relay

/-- Mirror of protocol.InstanceStatus (a str Enum with four members). -/
inductive InstanceStatus where
  | ready
  | busy
  | reloading
  | disconnected
deriving DecidableEq, Repr

/-- The string value of each InstanceStatus member, as in the Python enum. -/
def InstanceStatus.value : InstanceStatus → String
  | .ready => "ready"
  | .busy => "busy"
  | .reloading => "reloading"
  | .disconnected => "disconnected"

/-- Mirror of protocol.ErrorCode: exactly the members declared in
protocol.py lines 47-61.  The enum has fourteen members; in particular it
declares no member for an ambiguous instance query. -/
inductive ErrorCode where
  | INSTANCE_NOT_FOUND
  | INSTANCE_RELOADING
  | INSTANCE_BUSY
  | INSTANCE_DISCONNECTED
  | COMMAND_NOT_FOUND
  | INVALID_PARAMS
  | TIMEOUT
  | INTERNAL_ERROR
  | PROTOCOL_ERROR
  | MALFORMED_JSON
  | PAYLOAD_TOO_LARGE
  | PROTOCOL_VERSION_MISMATCH
  | CAPABILITY_NOT_SUPPORTED
  | QUEUE_FULL
deriving DecidableEq, Repr

/-- The string value of each ErrorCode member (the str Enum values). -/
def ErrorCode.value : ErrorCode → String
  | .INSTANCE_NOT_FOUND => "INSTANCE_NOT_FOUND"
  | .INSTANCE_RELOADING => "INSTANCE_RELOADING"
  | .INSTANCE_BUSY => "INSTANCE_BUSY"
  | .INSTANCE_DISCONNECTED => "INSTANCE_DISCONNECTED"
  | .COMMAND_NOT_FOUND => "COMMAND_NOT_FOUND"
  | .INVALID_PARAMS => "INVALID_PARAMS"
  | .TIMEOUT => "TIMEOUT"
  | .INTERNAL_ERROR => "INTERNAL_ERROR"
  | .PROTOCOL_ERROR => "PROTOCOL_ERROR"
  | .MALFORMED_JSON => "MALFORMED_JSON"
  | .PAYLOAD_TOO_LARGE => "PAYLOAD_TOO_LARGE"
  | .PROTOCOL_VERSION_MISMATCH => "PROTOCOL_VERSION_MISMATCH"
  | .CAPABILITY_NOT_SUPPORTED => "CAPABILITY_NOT_SUPPORTED"
  | .QUEUE_FULL => "QUEUE_FULL"

/-- Queue bound: instance_registry.QUEUE_MAX_SIZE. -/
def QUEUE_MAX_SIZE : Nat := 10

/-- Default queue switch: instance_registry.QUEUE_ENABLED. -/
def QUEUE_ENABLED : Bool := false

/-- Mirror of instance_registry.QueuedCommand.  The asyncio future is
represented by an opaque token (a Nat); resolving a future is modelled as
emitting a pair of the token and the reply delivered to it. -/
structure QueuedCommand where
  request_id : String
  command : String
  params : String
  timeout_ms : Nat
  future : Nat
deriving DecidableEq, Repr

/-- A reply dictionary the relay hands to a CLI client: either a
ResponseMessage dict or an ErrorMessage dict (protocol.py).  Opaque data
payloads are kept as strings. -/
inductive Reply where
  | response (id : String) (success : Bool) (data : Option String)
  | error (id : String) (code : ErrorCode) (message : String)
deriving DecidableEq, Repr

/-- The value of the success key in a reply dict: ResponseMessage carries
its success flag, ErrorMessage always has success false. -/
def Reply.success : Reply → Bool
  | .response _ s _ => s
  | .error _ _ _ => false

/-- The id field of a reply dict. -/
def Reply.rid : Reply → String
  | .response i _ _ => i
  | .error i _ _ => i

/-- Mirror of instance_registry.UnityInstance.  The writer stream is
modelled as an optional closing flag: none mirrors writer is None and
some b mirrors a writer whose is_closing() returns b.  The reader is a
presence flag.  Clock values are Nat ticks. -/
structure UnityInstance where
  instance_id : String
  project_name : String
  unity_version : String
  capabilities : List String
  status : InstanceStatus
  readerPresent : Bool
  writer : Option Bool
  registered_at : Nat
  last_heartbeat : Nat
  reloading_since : Option Nat
  command_queue : List QueuedCommand
  queue_enabled : Bool
deriving DecidableEq, Repr

namespace UnityInstance

/-- Mirror of the is_connected property. -/
def is_connected (i : UnityInstance) : Bool :=
  match i.writer with
  | none => false
  | some closing => !closing && !(i.status = InstanceStatus.disconnected)

/-- Mirror of the is_available property. -/
def is_available (i : UnityInstance) : Bool :=
  i.is_connected && i.status = InstanceStatus.ready

/-- Mirror of the queue_size property. -/
def queue_size (i : UnityInstance) : Nat := i.command_queue.length

/-- Mirror of the is_queue_full property. -/
def is_queue_full (i : UnityInstance) : Bool :=
  QUEUE_MAX_SIZE ≤ i.command_queue.length

/-- Mirror of update_heartbeat: last_heartbeat is set to the current time. -/
def update_heartbeat (i : UnityInstance) (now : Nat) : UnityInstance :=
  { i with last_heartbeat := now }

/-- Mirror of set_status: stores the new status; entering RELOADING stamps
reloading_since with the current time, and a transition whose old status
was RELOADING clears it. -/
def set_status (i : UnityInstance) (st : InstanceStatus) (now : Nat) : UnityInstance :=
  { i with
    status := st
    reloading_since :=
      if st = InstanceStatus.reloading then some now
      else if i.status = InstanceStatus.reloading then none
      else i.reloading_since }

/-- Mirror of enqueue_command: refuses when the queue feature is disabled
or the queue is full, otherwise appends the record (FIFO). -/
def enqueue_command (i : UnityInstance) (cmd : QueuedCommand) : Bool × UnityInstance :=
  if !i.queue_enabled then (false, i)
  else if i.is_queue_full then (false, i)
  else (true, { i with command_queue := i.command_queue ++ [cmd] })

/-- Mirror of dequeue_command: pops the head of the FIFO queue. -/
def dequeue_command (i : UnityInstance) : Option QueuedCommand × UnityInstance :=
  match i.command_queue with
  | [] => (none, i)
  | c :: rest => (some c, { i with command_queue := rest })

/-- Mirror of flush_queue: every queued command future is resolved with an
error reply built from the given code, and the queue empties.  The
returned list pairs each future token with the reply set on it. -/
def flush_queue (i : UnityInstance) (code : ErrorCode) (msg : String) :
    List (Nat × Reply) × UnityInstance :=
  (i.command_queue.map fun c => (c.future, Reply.error c.request_id code msg),
   { i with command_queue := [] })

/-- Mirror of close_connection: flushes the queue with
INSTANCE_DISCONNECTED, drops both streams and sets the status to
DISCONNECTED.  Note the status is assigned directly, not through
set_status, so reloading_since is left untouched. -/
def close_connection (i : UnityInstance) : List (Nat × Reply) × UnityInstance :=
  let (eff, i1) := i.flush_queue ErrorCode.INSTANCE_DISCONNECTED "Instance disconnected"
  (eff, { i1 with writer := none, readerPresent := false,
                  status := InstanceStatus.disconnected })

end UnityInstance

/-! ## Ordered dictionaries

Python dicts preserve insertion order; assigning an existing key keeps its
position, popping removes it, and next(iter(d)) yields the first key.  The
registry map is modelled as an association list with those semantics. -/

/-- Lookup in an insertion-ordered dict. -/
def dictGet (l : List (String × α)) (k : String) : Option α :=
  (l.find? fun p => p.1 = k).map (·.2)

/-- Assignment in an insertion-ordered dict: an existing key is updated in
place, a fresh key is appended at the end. -/
def dictSet (l : List (String × α)) (k : String) (v : α) : List (String × α) :=
  match l with
  | [] => [(k, v)]
  | p :: rest => if p.1 = k then (k, v) :: rest else p :: dictSet rest k v

/-- Deletion in an insertion-ordered dict. -/
def dictDel (l : List (String × α)) (k : String) : List (String × α) :=
  l.filter fun p => !(p.1 = k)

/-- Membership test, mirroring the Python in operator on a dict. -/
def dictHas (l : List (String × α)) (k : String) : Bool :=
  (dictGet l k).isSome

/-- Mirror of instance_registry.AmbiguousInstanceError: the query together
with the list of instances it matched. -/
structure AmbiguousInstanceError where
  query : String
  candidates : List UnityInstance
deriving DecidableEq, Repr

/-- Mirror of InstanceRegistry state: the insertion-ordered id-to-record
map, the nullable default id, the set of ids with a live grace-period
timer task, and the sticky was_default flags recorded at grace entry. -/
structure InstanceRegistry where
  instances : List (String × UnityInstance)
  default_instance_id : Option String
  grace_period_ids : List String
  was_default : List (String × Bool)
deriving DecidableEq, Repr

namespace InstanceRegistry

/-- The empty registry, as built by InstanceRegistry.__init__. -/
def init : InstanceRegistry :=
  { instances := [], default_instance_id := none
    grace_period_ids := [], was_default := [] }

/-- Mirror of InstanceRegistry.get. -/
def get (st : InstanceRegistry) (instance_id : String) : Option UnityInstance :=
  dictGet st.instances instance_id

/-- Mirror of InstanceRegistry.get_default. -/
def get_default (st : InstanceRegistry) : Option UnityInstance :=
  match st.default_instance_id with
  | some d => dictGet st.instances d
  | none => none

/-- Mirror of InstanceRegistry.set_default. -/
def set_default (st : InstanceRegistry) (instance_id : String) :
    Bool × InstanceRegistry :=
  if dictHas st.instances instance_id then
    (true, { st with default_instance_id := some instance_id })
  else (false, st)

/-- Mirror of InstanceRegistry.update_status. -/
def update_status (st : InstanceRegistry) (instance_id : String)
    (status : InstanceStatus) (now : Nat) : Bool × InstanceRegistry :=
  match dictGet st.instances instance_id with
  | none => (false, st)
  | some i =>
      (true, { st with instances := (dictSet st.instances instance_id (i.set_status status now)) })

/-- Mirror of InstanceRegistry.register.  A pending grace-period timer for
the id is cancelled and its was_default flag recovered; an existing live
record is closed (takeover) and replaced in place; the fresh record starts
READY; the default becomes this id when the flag was recovered or when no
default was set. -/
def register (st : InstanceRegistry) (instance_id project_name unity_version : String)
    (capabilities : List String) (now : Nat) : InstanceRegistry × UnityInstance :=
  let restore_default :=
    if st.grace_period_ids.contains instance_id then
      (dictGet st.was_default instance_id).getD false
    else false
  let st1 :=
    if st.grace_period_ids.contains instance_id then
      { st with grace_period_ids := st.grace_period_ids.filter (· ≠ instance_id)
                was_default := dictDel st.was_default instance_id }
    else st
  let inst : UnityInstance :=
    { instance_id := instance_id, project_name := project_name
      unity_version := unity_version, capabilities := capabilities
      status := InstanceStatus.ready, readerPresent := true, writer := some false
      registered_at := now, last_heartbeat := now, reloading_since := none
      command_queue := [], queue_enabled := QUEUE_ENABLED }
  let st2 := { st1 with instances := dictSet st1.instances instance_id inst }
  let st3 :=
    if restore_default then { st2 with default_instance_id := some instance_id }
    else if st2.default_instance_id = none then
      { st2 with default_instance_id := some instance_id }
    else st2
  (st3, inst)

/-- Mirror of InstanceRegistry.unregister: a missing id reports False; a
live record is removed and closed, and when it was the default the first
remaining record (insertion order) becomes the default, or the default is
cleared. -/
def unregister (st : InstanceRegistry) (instance_id : String) :
    Bool × InstanceRegistry :=
  if !(dictHas st.instances instance_id) then (false, st)
  else
    let remaining := dictDel st.instances instance_id
    let newDefault :=
      if st.default_instance_id = some instance_id then
        match remaining with
        | [] => none
        | p :: _ => some p.1
      else st.default_instance_id
    (true, { st with instances := remaining, default_instance_id := newDefault })

/-- Mirror of InstanceRegistry.disconnect_with_grace_period up to the
point where the timer task is spawned.  The out-of-band status-file check
is the parameter fileReloading.

Modelled from the spec: relay.status_file.is_instance_reloading is absent
from the sources; per the spec it is an optional external oracle that may
report a reload in progress, so it enters here as a boolean parameter.

When the instance was RELOADING (or the oracle says so) and grace_ms is
positive, the record leaves the live map, was_default is remembered and a
timer id is tracked; the default is not changed.  Otherwise the instance
is unregistered immediately (its connection was already closed). -/
def disconnect_with_grace_period (st : InstanceRegistry) (instance_id : String)
    (grace_period_ms : Nat) (fileReloading : Bool) : InstanceRegistry :=
  match dictGet st.instances instance_id with
  | none => st
  | some inst =>
      let was_reloading :=
        if inst.status = InstanceStatus.reloading then true else fileReloading
      let was_default := st.default_instance_id = some instance_id
      let closed := (inst.close_connection).2
      let stc := { st with instances := dictSet st.instances instance_id closed }
      if was_reloading && 0 < grace_period_ms then
        { stc with
          instances := dictDel stc.instances instance_id
          was_default := dictSet stc.was_default instance_id was_default
          grace_period_ids := stc.grace_period_ids ++ [instance_id] }
      else (stc.unregister instance_id).2

/-- Mirror of the grace_period_timeout task body after its sleep expires
uncancelled: the timer entry and the was_default flag are dropped, and
when the instance was the default and still nominally is, the default is
re-elected from the remaining records. -/
def grace_period_expire (st : InstanceRegistry) (instance_id : String) :
    InstanceRegistry :=
  let st1 := { st with
    grace_period_ids := st.grace_period_ids.filter (· ≠ instance_id) }
  let was_default_expired := (dictGet st1.was_default instance_id).getD false
  let st2 := { st1 with was_default := dictDel st1.was_default instance_id }
  if was_default_expired && st2.default_instance_id = some instance_id then
    match st2.instances with
    | [] => { st2 with default_instance_id := none }
    | p :: _ => { st2 with default_instance_id := some p.1 }
  else st2

/-- Mirror of InstanceRegistry._resolve_instance: the four-stage match.
Stage 1 is the dict lookup on instance_id; stages 2-4 filter the values
and short-circuit with one match, raise with several, fall through with
none.  The error value carries the matched candidates. -/
def resolve_instance (instances : List (String × UnityInstance)) (query : String) :
    Except AmbiguousInstanceError (Option UnityInstance) :=
  match dictGet instances query with
  | some exact => .ok (some exact)
  | none =>
    let vals := instances.map (·.2)
    let name_matches := vals.filter fun i => i.project_name = query
    if name_matches.length = 1 then .ok name_matches.head?
    else if 1 < name_matches.length then .error ⟨query, name_matches⟩
    else
      let suffix_matches := vals.filter fun i =>
        ("/" ++ query).data.isSuffixOf i.instance_id.data
          || ("\\" ++ query).data.isSuffixOf i.instance_id.data
      if suffix_matches.length = 1 then .ok suffix_matches.head?
      else if 1 < suffix_matches.length then .error ⟨query, suffix_matches⟩
      else
        let pre_matches := vals.filter fun i =>
          query.data.isPrefixOf i.project_name.data
        if pre_matches.length = 1 then .ok pre_matches.head?
        else if 1 < pre_matches.length then .error ⟨query, pre_matches⟩
        else .ok none

/-- Mirror of InstanceRegistry.get_instance_for_request: resolve a
non-empty query through the four stages, otherwise take the default.  A
Python falsy check admits the empty string, which also selects the
default. -/
def get_instance_for_request (st : InstanceRegistry) (instance_id : Option String) :
    Except AmbiguousInstanceError (Option UnityInstance) :=
  match instance_id with
  | some q => if q = "" then .ok st.get_default else resolve_instance st.instances q
  | none => .ok st.get_default

/-- Mirror of InstanceRegistry.handle_heartbeat_timeout: elapsed time
since the last heartbeat is compared against the timeout, stretched to
30000 ms while the instance is RELOADING; on expiry the record transitions
to DISCONNECTED (through set_status) and the check reports true.  The
clock is in milliseconds here to mirror the *1000 scaling. -/
def handle_heartbeat_timeout (st : InstanceRegistry) (instance_id : String)
    (timeout_ms : Nat) (now_ms : Nat) : Bool × InstanceRegistry :=
  match dictGet st.instances instance_id with
  | none => (false, st)
  | some inst =>
      let elapsed := now_ms - inst.last_heartbeat
      let eff_timeout :=
        if inst.status = InstanceStatus.reloading then 30000 else timeout_ms
      if eff_timeout < elapsed then
        (true, { st with instances := (dictSet st.instances instance_id (inst.set_status InstanceStatus.disconnected now_ms)) })
      else (false, st)

end InstanceRegistry

/-! ## Dispatch core (server.py)

The relay server functions are embedded against a registry snapshot: the
model makes the cooperative-scheduling assumption explicit by holding the
registry constant across the polling sleeps of the instance-ready wait
loop (no concurrent task mutates it during the modelled run).  Paths that
suspend on an external event (a COMMAND_RESULT future, a queued command
future) are represented as explicit outcome constructors rather than
modelled further. -/

/-- Mirror of protocol.CommandMessage fields carried on a COMMAND frame. -/
structure CommandMessage where
  id : String
  command : String
  params : String
  timeout_ms : Nat
deriving DecidableEq, Repr

/-- Decision reached by RelayServer._execute_command within one registry
snapshot: a synchronous reply dict, a successful enqueue that then awaits
the queued future, a COMMAND dispatch that then awaits the pending-command
future, or an AmbiguousInstanceError escaping the function. -/
inductive ExecOutcome where
  | reply (r : Reply)
  | queuedWait (inst : UnityInstance) (cmd : QueuedCommand)
  | dispatch (inst : UnityInstance) (cmd : CommandMessage)
  | raisedAmbiguous (e : AmbiguousInstanceError)
deriving DecidableEq, Repr

/-- Python truthiness of the optional instance query: present and
non-empty. -/
def queryTruthy : Option String → Bool
  | some q => !(q = "")
  | none => false

/-- Exit condition of the instance-ready wait loop: an in-loop
INSTANCE_NOT_FOUND return, or falling through to the post-loop re-check
(break or wait budget exhausted), remembering the milliseconds waited. -/
inductive WaitResult where
  | notFound
  | proceed (waited_ms : Nat)
deriving DecidableEq, Repr

/-- Mirror of the wait loop of _execute_command (10 s budget, 250 ms
polls, so 40 iterations): an absent instance returns INSTANCE_NOT_FOUND
when a query was given and otherwise waits; RELOADING, DISCONNECTED and
closed-writer instances wait; any other state (READY or BUSY) breaks. -/
def ready_wait (st : InstanceRegistry) (query : Option String) :
    Nat → Nat → Except AmbiguousInstanceError WaitResult
  | 0, waited => .ok (.proceed waited)
  | fuel + 1, waited =>
    match st.get_instance_for_request query with
    | .error e => .error e
    | .ok none =>
        if queryTruthy query then .ok .notFound
        else ready_wait st query fuel (waited + 250)
    | .ok (some inst) =>
        if inst.status = InstanceStatus.reloading then
          ready_wait st query fuel (waited + 250)
        else if inst.status = InstanceStatus.disconnected || !inst.is_connected then
          ready_wait st query fuel (waited + 250)
        else .ok (.proceed waited)

/-- Interpolation of the optional query in error message text. -/
def queryText : Option String → String
  | some q => q
  | none => "None"

/-- Mirror of RelayServer._execute_command up to its first suspension on
an external event.  futureToken names the fresh asyncio.Future created for
an enqueue.  The registry snapshot is read consistently; the dispatch
branch records the BUSY transition applied to the instance. -/
def execute_command (st : InstanceRegistry) (request_id : String)
    (query : Option String) (command : String) (params : String)
    (timeout_ms : Nat) (futureToken : Nat) (now : Nat) : ExecOutcome :=
  match ready_wait st query 40 0 with
  | .error e => .raisedAmbiguous e
  | .ok .notFound =>
      .reply (Reply.error request_id ErrorCode.INSTANCE_NOT_FOUND
        ("Instance not found: " ++ queryText query))
  | .ok (.proceed waited_ms) =>
    match st.get_instance_for_request query with
    | .error e => .raisedAmbiguous e
    | .ok none =>
        .reply (Reply.error request_id ErrorCode.INSTANCE_NOT_FOUND
          ("Instance not found after waiting " ++ toString waited_ms ++ "ms"))
    | .ok (some inst) =>
        if !(inst.capabilities = []) && !(inst.capabilities.contains command) then
          .reply (Reply.error request_id ErrorCode.CAPABILITY_NOT_SUPPORTED
            ("Command " ++ command ++ " not supported by instance. Available: "
              ++ String.intercalate ", " inst.capabilities))
        else if inst.status = InstanceStatus.reloading then
          .reply (Reply.error request_id ErrorCode.INSTANCE_RELOADING
            ("Instance still reloading after " ++ toString waited_ms ++ "ms: "
              ++ inst.instance_id))
        else if inst.status = InstanceStatus.busy then
          if inst.queue_enabled then
            let cmd : QueuedCommand :=
              { request_id := request_id, command := command, params := params
                timeout_ms := timeout_ms, future := futureToken }
            match inst.enqueue_command cmd with
            | (true, inst1) => .queuedWait inst1 cmd
            | (false, _) =>
                .reply (Reply.error request_id ErrorCode.QUEUE_FULL
                  ("Command queue is full (max: " ++ toString inst.queue_size
                    ++ "): " ++ inst.instance_id))
          else
            .reply (Reply.error request_id ErrorCode.INSTANCE_BUSY
              ("Instance is busy: " ++ inst.instance_id))
        else
          .dispatch (inst.set_status InstanceStatus.busy now)
            { id := request_id, command := command, params := params
              timeout_ms := timeout_ms }

/-- Frames written back to a CLI client for one REQUEST, when the request
concludes within the registry snapshot (the request id is fresh, so the
request cache lets the execute path run; C3 and C6 model the cache
itself).  A reply dict is framed back; an escaped exception is caught by
the generic handler of _handle_connection, which logs and closes the
socket without writing any frame.  none marks the paths that suspend on
an external event. -/
def request_frames_now (st : InstanceRegistry) (request_id : String)
    (query : Option String) (command : String) (params : String)
    (timeout_ms : Nat) (futureToken : Nat) (now : Nat) : Option (List Reply) :=
  match execute_command st request_id query command params timeout_ms futureToken now with
  | .reply r => some [r]
  | .raisedAmbiguous _ => some []
  | .queuedWait _ _ => none
  | .dispatch _ _ => none

/-- Mirror of a STATUS frame status-string parse: InstanceStatus(value)
raising ValueError becomes none. -/
def statusOfString : String → Option InstanceStatus
  | "ready" => some InstanceStatus.ready
  | "busy" => some InstanceStatus.busy
  | "reloading" => some InstanceStatus.reloading
  | "disconnected" => some InstanceStatus.disconnected
  | _ => none

/-- An inbound frame from a registered instance, by message type. -/
inductive UnityMsg where
  | statusMsg (status : String)
  | commandResult (id : String) (success : Bool)
  | pong
  | unknown (msgType : String)
deriving DecidableEq, Repr

/-- Mirror of RelayServer._handle_unity_message: the heartbeat stamp is
refreshed first, then the type dispatches — STATUS through set_status (an
unknown status string only logs), COMMAND_RESULT resolves and removes the
pending slot when present, PONG sets the pending pong event when present,
anything else only logs.  State is the instance record, the
pending-command map (request id to future token) and the pending pong
event (none when absent, some b with b the set flag). -/
def handle_unity_message (inst : UnityInstance)
    (pending_commands : List (String × Nat)) (pending_pong : Option Bool)
    (msg : UnityMsg) (now : Nat) :
    UnityInstance × List (String × Nat) × Option Bool :=
  let inst := inst.update_heartbeat now
  match msg with
  | .statusMsg s =>
      match statusOfString s with
      | some st => (inst.set_status st now, pending_commands, pending_pong)
      | none => (inst, pending_commands, pending_pong)
  | .commandResult rid _ =>
      if dictHas pending_commands rid then
        (inst, dictDel pending_commands rid, pending_pong)
      else (inst, pending_commands, pending_pong)
  | .pong => (inst, pending_commands, pending_pong.map fun _ => true)
  | .unknown _ => (inst, pending_commands, pending_pong)

/-- Mirror of the finally block of RelayServer._handle_unity_connection:
when the frame loop exits, the heartbeat task for the instance is
cancelled and removed, and the instance is unregistered — unconditionally,
whatever its status. -/
def unity_connection_teardown (heartbeat_tasks : List String)
    (st : InstanceRegistry) (instance_id : String) :
    List String × InstanceRegistry :=
  (heartbeat_tasks.filter (· ≠ instance_id), (st.unregister instance_id).2)

/-! ## Request cache (request_cache.py)

State of RequestCache: the TTL-bounded entries map, the in-flight map
(request id to its asyncio.Event, modelled as its set flag) and the
pending_results map holding a produced response for late joiners.  Clock
values are in seconds, as in the Python source. -/

/-- Mirror of request_cache.CacheEntry. -/
structure CacheEntry where
  response : Reply
  created_at : Nat
deriving DecidableEq, Repr

/-- Mirror of CacheEntry.is_expired: age strictly beyond the TTL. -/
def CacheEntry.is_expired (e : CacheEntry) (ttl now : Nat) : Bool :=
  ttl < now - e.created_at

/-- Mirror of RequestCache state. -/
structure RequestCache where
  cache : List (String × CacheEntry)
  pending : List (String × Bool)
  pending_results : List (String × Reply)
  ttl_seconds : Nat
deriving DecidableEq, Repr

/-- A fresh cache with the given TTL, as built by RequestCache.__init__. -/
def RequestCache.init (ttl : Nat) : RequestCache :=
  { cache := [], pending := [], pending_results := [], ttl_seconds := ttl }

/-- The cache-miss continuation of handle_request (see
handle_request_run below for the entry point and the path structure). -/
def RequestCache.handle_request_go (s : RequestCache) (request_id : String)
    (resp : Reply) (now : Nat) : Option (Reply × RequestCache × Bool) :=
  if dictHas s.pending request_id then none
  else
    let s1 := { s with pending := dictSet s.pending request_id false }
    let s2 :=
      if resp.success then
        { s1 with cache := dictSet s1.cache request_id ⟨resp, now⟩
                  pending_results := dictSet s1.pending_results request_id resp }
      else
        { s1 with pending_results := dictSet s1.pending_results request_id resp }
    let s3 := { s2 with pending := dictDel s2.pending request_id }
    some (resp, s3, true)

/-- Big-step run of RequestCache.handle_request by one task with no
concurrent interference, at time now, where execute_fn returns resp:
first the cache hit check, then handle_request_go (the cache-miss
continuation: the in-flight check, then the executor path — mark
in-flight, execute, store on success, publish the pending result, then
signal and drop the in-flight record).  Returns the reply handed back,
the final cache state, and whether execute_fn was invoked; none models
the waiter path suspending on an event no other task of this run sets. -/
def RequestCache.handle_request_run (s : RequestCache) (request_id : String)
    (resp : Reply) (now : Nat) : Option (Reply × RequestCache × Bool) :=
  match dictGet s.cache request_id with
  | some entry =>
      if !(entry.is_expired s.ttl_seconds now) then some (entry.response, s, false)
      else RequestCache.handle_request_go s request_id resp now
  | none => RequestCache.handle_request_go s request_id resp now

/-- The cache states visible at each suspension point of one uncontended
executor-path run of handle_request (a fresh request id): in order, the
two read-phase lock acquisitions, the await on execute_fn after the
in-flight mark, the post-execute lock acquisition, and the lock
acquisition of the finally block after the success store. -/
def RequestCache.suspension_states (s : RequestCache) (request_id : String)
    (resp : Reply) (now : Nat) : List RequestCache :=
  let s1 := { s with pending := dictSet s.pending request_id false }
  let s2 :=
    if resp.success then
      { s1 with cache := dictSet s1.cache request_id ⟨resp, now⟩
                pending_results := dictSet s1.pending_results request_id resp }
    else
      { s1 with pending_results := dictSet s1.pending_results request_id resp }
  [s, s, s1, s1, s2]

/-- The two-maps exclusivity invariant of the spec: no request id is in
both the entries map and the in-flight map. -/
def RequestCache.exclusive (s : RequestCache) : Prop :=
  ∀ k : String, ¬(dictHas s.cache k = true ∧ dictHas s.pending k = true)

instance (s : RequestCache) : Decidable s.exclusive := by
  unfold RequestCache.exclusive
  have : (∀ p ∈ s.pending, !(dictHas s.cache p.1)) ↔
      ∀ k : String, ¬(dictHas s.cache k = true ∧ dictHas s.pending k = true) := by
    constructor
    · intro h k hk
      rcases hk with ⟨hc, hp⟩
      unfold dictHas dictGet at hp
      rcases Option.isSome_iff_exists.mp hp with ⟨v, hv⟩
      rcases Option.map_eq_some'.mp hv with ⟨p, hfind, _⟩
      have hmem := List.mem_of_find?_eq_some hfind
      have hkey : p.1 = k := by
        have := List.find?_some hfind
        simpa using this
      have := h p hmem
      rw [hkey] at this
      simp [hc] at this
    · intro h p hp
      by_contra hc
      simp only [Bool.not_eq_true', Bool.not_eq_false] at hc
      exact h p.1 ⟨hc, by
        unfold dictHas dictGet
        have : s.pending.find? (fun q => q.1 = p.1) |>.isSome := by
          apply List.find?_isSome.mpr
          exact ⟨p, hp, by simp⟩
        simpa using this⟩
  exact decidable_of_iff _ this

/-! ## Spec-side resolver

For the refinement claim about the four-stage match, a second definition
follows the wording of the spec: each stage filters the registry values by
its match predicate, returns the unique record on exactly one match,
raises the ambiguity error on more than one and falls through on zero;
when all four stages find nothing the result is none. -/

/-- Stage verdict on its list of matches: none falls through, a singleton
list yields its record, more than one raises. -/
def stageVerdict (hits : List UnityInstance) (q : String) :
    Option (Except AmbiguousInstanceError (Option UnityInstance)) :=
  match hits with
  | [] => none
  | [i] => some (.ok (some i))
  | _ => some (.error ⟨q, hits⟩)

/-- Path-suffix match of the spec wording: the query is what follows a
final "/" or "\" separator (equivalently, the id ends with the separator
followed by the query). -/
def pathSuffixMatch (iid q : String) : Bool :=
  ("/" ++ q).data.isSuffixOf iid.data || ("\\" ++ q).data.isSuffixOf iid.data

/-- The four-stage resolution exactly as the spec words it. -/
def resolveSpec (instances : List (String × UnityInstance)) (q : String) :
    Except AmbiguousInstanceError (Option UnityInstance) :=
  let vals := instances.map (·.2)
  let byId := vals.filter fun i => i.instance_id = q
  let byName := vals.filter fun i => i.project_name = q
  let bySuffix := vals.filter fun i => pathSuffixMatch i.instance_id q
  let byNameStart := vals.filter fun i => q.data.isPrefixOf i.project_name.data
  (((stageVerdict byId q).orElse fun _ => (stageVerdict byName q).orElse fun _ =>
    (stageVerdict bySuffix q).orElse fun _ => stageVerdict byNameStart q)).getD
    (.ok none)

/-- Well-formedness of the registry map, maintained by register: keys are
unique (it is a dict) and each record is stored under its own id. -/
def wfInstances (instances : List (String × UnityInstance)) : Prop :=
  (instances.map (·.1)).Nodup ∧ ∀ p ∈ instances, p.2.instance_id = p.1

/-! ## Concrete scenario states -/

/-- A READY instance on an open connection, used by concrete scenarios. -/
def sampleInstance (iid pname : String) : UnityInstance :=
  { instance_id := iid, project_name := pname, unity_version := "2022.3"
    capabilities := [], status := InstanceStatus.ready, readerPresent := true
    writer := some false, registered_at := 0, last_heartbeat := 0
    reloading_since := none, command_queue := [], queue_enabled := false }

/-- The ambiguity scenario of the spec: two registered instances whose
project name is ProjA, under ids /u/demo/ProjA and /u/other/ProjA. -/
def regProjA : InstanceRegistry :=
  { instances :=
      [("/u/demo/ProjA", sampleInstance "/u/demo/ProjA" "ProjA"),
       ("/u/other/ProjA", sampleInstance "/u/other/ProjA" "ProjA")]
    default_instance_id := some "/u/demo/ProjA"
    grace_period_ids := [], was_default := [] }

/-- An instance captured mid reload: RELOADING with its stamp set. -/
def reloadingInstance : UnityInstance :=
  { sampleInstance "/p/A" "A" with
      status := InstanceStatus.reloading, reloading_since := some 5 }

/-- A registry holding one RELOADING default instance, mid reload. -/
def regReloading : InstanceRegistry :=
  { instances := [("/p/A", reloadingInstance)]
    default_instance_id := some "/p/A"
    grace_period_ids := [], was_default := [] }

/-- The relation between reloading_since and the status, as the spec
states it: the stamp is present exactly while the status is RELOADING. -/
def reloadingInvariant (i : UnityInstance) : Prop :=
  i.reloading_since ≠ none ↔ i.status = InstanceStatus.reloading

/-- A BUSY queue-enabled instance with an empty queue, and its registry. -/
def busyQueueInstance : UnityInstance :=
  { sampleInstance "/p/B" "B" with
      status := InstanceStatus.busy, queue_enabled := true }

/-- Registry with the single BUSY queue-enabled instance as the default. -/
def regBusy : InstanceRegistry :=
  { instances := [("/p/B", busyQueueInstance)]
    default_instance_id := some "/p/B"
    grace_period_ids := [], was_default := [] }

/-- The BUSY queue-enabled instance with its queue at the cap of ten. -/
def busyFullInstance : UnityInstance :=
  { busyQueueInstance with
      command_queue := List.replicate 10 ⟨"q0", "cmd", "", 1000, 0⟩ }

/-- Registry with the full-queue BUSY instance as the default. -/
def regBusyFull : InstanceRegistry :=
  { instances := [("/p/B", busyFullInstance)]
    default_instance_id := some "/p/B"
    grace_period_ids := [], was_default := [] }

/-- A BUSY instance with the queue feature disabled, and its registry. -/
def busyNoQueueInstance : UnityInstance :=
  { sampleInstance "/p/C" "C" with status := InstanceStatus.busy }

/-- Registry with the queue-disabled BUSY instance as the default. -/
def regBusyNoQueue : InstanceRegistry :=
  { instances := [("/p/C", busyNoQueueInstance)]
    default_instance_id := some "/p/C"
    grace_period_ids := [], was_default := [] }

/-! ## JSON codec (model of the library calls in protocol.py)

write_frame serializes with json.dumps(payload, ensure_ascii=False) and
encodes UTF-8; read_frame decodes UTF-8 and parses with json.loads.
Those library routines are modelled here for the fragment the relay
exchanges: objects, arrays, strings, integers, booleans and null (floats
are out of scope).  dumps uses the default separators (a comma-space
between items, a colon-space after keys) and escapes exactly the two
metacharacters and the control range, lowercase hex, keeping all other
characters raw (ensure_ascii is off).  loads is a strict parser: unknown
escapes and raw control characters in strings are rejected. -/

/-- A JSON value of the fragment the relay exchanges. -/
inductive Json where
  | null
  | bool (b : Bool)
  | int (i : Int)
  | str (s : String)
  | arr (items : List Json)
  | obj (members : List (String × Json))

/-- Lowercase hexadecimal digit character for a nibble. -/
def hexDigitChar (d : Nat) : Char :=
  Char.ofNat (if d < 10 then 48 + d else 87 + d)

/-- Escape of one character inside a JSON string, as dumps performs it
with ensure_ascii off: backslash and quote get two-character escapes, the
named control characters their letter forms, the rest of the control
range a four-digit lowercase unicode escape, everything else is kept. -/
def pyEscapeChar (c : Char) : List Char :=
  if c = '\\' then ['\\', '\\']
  else if c = '"' then ['\\', '"']
  else if c.toNat = 10 then ['\\', 'n']
  else if c.toNat = 13 then ['\\', 'r']
  else if c.toNat = 9 then ['\\', 't']
  else if c.toNat = 8 then ['\\', 'b']
  else if c.toNat = 12 then ['\\', 'f']
  else if c.toNat < 32 then
    ['\\', 'u', '0', '0', hexDigitChar (c.toNat / 16), hexDigitChar (c.toNat % 16)]
  else [c]

/-- A dumped string literal: quote, escaped body, quote. -/
def dumpStrChars (s : String) : List Char :=
  '"' :: (s.data.flatMap pyEscapeChar ++ ['"'])

/-- Decimal digit character. -/
def decDigitChar (d : Nat) : Char := Char.ofNat (48 + d)

/-- Decimal digit characters of a Nat, most significant first, pushed
onto an accumulator, driven by a fuel counter (one unit per digit). -/
def natCharsF : Nat → Nat → List Char → List Char
  | 0, _, acc => acc
  | fuel + 1, n, acc =>
      if n < 10 then decDigitChar n :: acc
      else natCharsF fuel (n / 10) (decDigitChar (n % 10) :: acc)

/-- Decimal digit characters of a Nat, most significant first, pushed
onto an accumulator (a number always has fewer digits than n + 1). -/
def natCharsOnto (n : Nat) (acc : List Char) : List Char :=
  natCharsF (n + 1) n acc

/-- Decimal form of an integer, as str(int) prints it. -/
def intChars (i : Int) : List Char :=
  if i < 0 then '-' :: natCharsOnto i.natAbs [] else natCharsOnto i.natAbs []

mutual

/-- Characters of json.dumps for a value of the fragment. -/
def jdump : Json → List Char
  | .null => "null".data
  | .bool b => if b then "true".data else "false".data
  | .int i => intChars i
  | .str s => dumpStrChars s
  | .arr [] => '[' :: [']']
  | .arr (v :: vs) => '[' :: (jdump v ++ (jdumpArrRest vs ++ [']']))
  | .obj [] => '{' :: ['}']
  | .obj (m :: ms) => '{' :: (jdumpMember m ++ (jdumpObjRest ms ++ ['}']))

/-- One object member: dumped key, colon-space, dumped value. -/
def jdumpMember : String × Json → List Char
  | (k, v) => dumpStrChars k ++ (':' :: ' ' :: jdump v)

/-- Comma-space separated continuation of an array. -/
def jdumpArrRest : List Json → List Char
  | [] => []
  | v :: vs => ',' :: ' ' :: (jdump v ++ jdumpArrRest vs)

/-- Comma-space separated continuation of an object. -/
def jdumpObjRest : List (String × Json) → List Char
  | [] => []
  | m :: ms => ',' :: ' ' :: (jdumpMember m ++ jdumpObjRest ms)

end

/-- JSON decimal digit test. -/
def isJDigit (c : Char) : Bool := 48 ≤ c.toNat && c.toNat ≤ 57

/-- JSON whitespace test (space, tab, newline, carriage return). -/
def isJWs (c : Char) : Bool :=
  c.toNat = 32 || c.toNat = 9 || c.toNat = 10 || c.toNat = 13

/-- Drop leading JSON whitespace. -/
def dropJWs : List Char → List Char
  | [] => []
  | c :: cs => if isJWs c then dropJWs cs else c :: cs

/-- Longest digit run at the head of the input, and the remainder. -/
def digitSpan : List Char → List Char × List Char
  | [] => ([], [])
  | c :: cs =>
      if isJDigit c then
        let p := digitSpan cs
        (c :: p.1, p.2)
      else ([], c :: cs)

/-- Numeric value of a digit run. -/
def digitsToNat (ds : List Char) : Nat :=
  ds.foldl (fun a c => a * 10 + (c.toNat - 48)) 0

/-- Value of one hexadecimal digit character, either case. -/
def hexNibble (c : Char) : Option Nat :=
  if 48 ≤ c.toNat && c.toNat ≤ 57 then some (c.toNat - 48)
  else if 97 ≤ c.toNat && c.toNat ≤ 102 then some (c.toNat - 87)
  else if 65 ≤ c.toNat && c.toNat ≤ 70 then some (c.toNat - 55)
  else none

/-- Value of a four-digit hexadecimal escape body. -/
def hex4 (a b c d : Char) : Option Nat :=
  match hexNibble a, hexNibble b, hexNibble c, hexNibble d with
  | some va, some vb, some vc, some vd => some (((va * 16 + vb) * 16 + vc) * 16 + vd)
  | _, _, _, _ => none

/-- The short backslash escapes loads accepts. -/
def shortEscape : Char → Option Char
  | '"' => some '"'
  | '\\' => some '\\'
  | '/' => some '/'
  | 'n' => some (Char.ofNat 10)
  | 'r' => some (Char.ofNat 13)
  | 't' => some (Char.ofNat 9)
  | 'b' => some (Char.ofNat 8)
  | 'f' => some (Char.ofNat 12)
  | _ => none

/-- Scan of a string body after its opening quote, strict mode, driven
by a fuel counter (one unit per decoded character): returns the decoded
characters and the input after the closing quote.  Raw control
characters and unknown escapes are rejected. -/
def scanStrF : Nat → List Char → Option (List Char × List Char)
  | 0, _ => none
  | _ + 1, [] => none
  | fuel + 1, c :: cs =>
      if c = '"' then some ([], cs)
      else if c = '\\' then
        match cs with
        | [] => none
        | e :: r =>
            if e = 'u' then
              match r with
              | h1 :: h2 :: h3 :: h4 :: r2 =>
                  match hex4 h1 h2 h3 h4 with
                  | some n => (scanStrF fuel r2).map fun p => (Char.ofNat n :: p.1, p.2)
                  | none => none
              | _ => none
            else
              match shortEscape e with
              | some ch => (scanStrF fuel r).map fun p => (ch :: p.1, p.2)
              | none => none
      else if c.toNat < 32 then none
      else (scanStrF fuel cs).map fun p => (c :: p.1, p.2)

/-- Scan of a string body after its opening quote (the scan decodes at
most one character per input character, so the fuel suffices). -/
def scanStr (cs : List Char) : Option (List Char × List Char) :=
  scanStrF (cs.length + 1) cs

mutual

/-- Fueled recursive-descent parse of one JSON value, mirroring loads on
the fragment (whitespace skipped at token starts; integers only). -/
def parseJVal : Nat → List Char → Option (Json × List Char)
  | 0, _ => none
  | fuel + 1, cs =>
    match dropJWs cs with
    | [] => none
    | c :: r =>
        if c = 'n' then
          match r with
          | 'u' :: 'l' :: 'l' :: r2 => some (.null, r2)
          | _ => none
        else if c = 't' then
          match r with
          | 'r' :: 'u' :: 'e' :: r2 => some (.bool true, r2)
          | _ => none
        else if c = 'f' then
          match r with
          | 'a' :: 'l' :: 's' :: 'e' :: r2 => some (.bool false, r2)
          | _ => none
        else if c = '"' then
          (scanStr r).map fun p => (.str (String.mk p.1), p.2)
        else if c = '[' then
          match dropJWs r with
          | [] => none
          | c2 :: r2 =>
              if c2 = ']' then some (.arr [], r2)
              else (parseJItems fuel (c2 :: r2)).map fun p => (.arr p.1, p.2)
        else if c = '{' then
          match dropJWs r with
          | [] => none
          | c2 :: r2 =>
              if c2 = '}' then some (.obj [], r2)
              else (parseJMembers fuel (c2 :: r2)).map fun p => (.obj p.1, p.2)
        else if c = '-' then
          match digitSpan r with
          | ([], _) => none
          | (ds, r2) => some (.int (-(digitsToNat ds : Int)), r2)
        else if isJDigit c then
          match digitSpan (c :: r) with
          | (ds, r2) => some (.int (digitsToNat ds : Int), r2)
        else none

/-- One-or-more comma-separated array items up to the closing bracket. -/
def parseJItems : Nat → List Char → Option (List Json × List Char)
  | 0, _ => none
  | fuel + 1, cs =>
    match parseJVal fuel cs with
    | none => none
    | some (v, r) =>
        match dropJWs r with
        | [] => none
        | c :: r2 =>
            if c = ',' then (parseJItems fuel r2).map fun p => (v :: p.1, p.2)
            else if c = ']' then some ([v], r2)
            else none

/-- One-or-more key-value members up to the closing brace. -/
def parseJMembers : Nat → List Char → Option (List (String × Json) × List Char)
  | 0, _ => none
  | fuel + 1, cs =>
    match dropJWs cs with
    | [] => none
    | c :: r =>
        if c = '"' then
          match scanStr r with
          | none => none
          | some (kcs, r1) =>
              match dropJWs r1 with
              | [] => none
              | c2 :: r2 =>
                  if c2 = ':' then
                    match parseJVal fuel r2 with
                    | none => none
                    | some (v, r3) =>
                        match dropJWs r3 with
                        | [] => none
                        | c3 :: r4 =>
                            if c3 = ',' then
                              (parseJMembers fuel r4).map fun p =>
                                ((String.mk kcs, v) :: p.1, p.2)
                            else if c3 = '}' then some ([(String.mk kcs, v)], r4)
                            else none
                  else none
        else none

end

/-- Model of json.loads on a character sequence: one value, then only
trailing whitespace. -/
def jloads (cs : List Char) : Option Json :=
  match parseJVal (cs.length + 1) cs with
  | some (j, r) => if dropJWs r = [] then some j else none
  | none => none

/-! ## UTF-8 and framing (protocol.py write_frame and read_frame) -/

/-- UTF-8 bytes of one character (scalar values only, as Lean Char). -/
def utf8EncChar (c : Char) : List Nat :=
  let n := c.toNat
  if n < 128 then [n]
  else if n < 2048 then [192 + n / 64, 128 + n % 64]
  else if n < 65536 then [224 + n / 4096, 128 + n / 64 % 64, 128 + n % 64]
  else [240 + n / 262144, 128 + n / 4096 % 64, 128 + n / 64 % 64, 128 + n % 64]

/-- UTF-8 encoding of a character sequence, as str.encode produces it. -/
def utf8Enc (cs : List Char) : List Nat := cs.flatMap utf8EncChar

/-- Continuation byte test. -/
def isContByte (b : Nat) : Bool := 128 ≤ b && b < 192

/-- Strict UTF-8 decoding of a byte sequence, driven by a fuel counter
(one unit per decoded character), as bytes.decode performs it: truncated
sequences, stray continuation bytes, overlong forms, surrogates and
out-of-range values are rejected. -/
def utf8DecF : Nat → List Nat → Option (List Char)
  | 0, _ => none
  | _ + 1, [] => some []
  | fuel + 1, b :: bs =>
      if b < 128 then (utf8DecF fuel bs).map (Char.ofNat b :: ·)
      else if b < 192 then none
      else if b < 224 then
        match bs with
        | b1 :: bs2 =>
            if isContByte b1 then
              let n := (b - 192) * 64 + (b1 - 128)
              if n < 128 then none
              else (utf8DecF fuel bs2).map (Char.ofNat n :: ·)
            else none
        | [] => none
      else if b < 240 then
        match bs with
        | b1 :: b2 :: bs2 =>
            if isContByte b1 && isContByte b2 then
              let n := (b - 224) * 4096 + ((b1 - 128) * 64 + (b2 - 128))
              if n < 2048 then none
              else if 55296 ≤ n && n < 57344 then none
              else (utf8DecF fuel bs2).map (Char.ofNat n :: ·)
            else none
        | _ => none
      else if b < 248 then
        match bs with
        | b1 :: b2 :: b3 :: bs2 =>
            if isContByte b1 && isContByte b2 && isContByte b3 then
              let n := (b - 240) * 262144 +
                ((b1 - 128) * 4096 + ((b2 - 128) * 64 + (b3 - 128)))
              if n < 65536 then none
              else if 1114111 < n then none
              else (utf8DecF fuel bs2).map (Char.ofNat n :: ·)
            else none
        | _ => none
      else none

/-- Strict UTF-8 decoding of a byte sequence (the decoding yields at
most one character per input byte, so the fuel suffices). -/
def utf8Dec (bs : List Nat) : Option (List Char) :=
  utf8DecF (bs.length + 1) bs

/-- Mirror of protocol.MAX_PAYLOAD_BYTES: 16 MiB. -/
def MAX_PAYLOAD_BYTES : Nat := 16 * 1024 * 1024

/-- Mirror of protocol.HEADER_SIZE. -/
def HEADER_SIZE : Nat := 4

/-- Failure conditions of the framing codec: the ValueError for an
oversize payload, connection loss mid-frame, and a decode or parse
failure of the body. -/
inductive FrameError where
  | payloadTooLarge
  | incompleteRead
  | malformedJson
deriving DecidableEq, Repr

/-- Big-endian 4-byte header for a length, as struct.pack emits it. -/
def be32 (n : Nat) : List Nat :=
  [n / 16777216 % 256, n / 65536 % 256, n / 256 % 256, n % 256]

/-- Mirror of protocol.write_frame: serialize the payload, reject it
beyond the cap before writing anything, otherwise emit header plus body
atomically. -/
def write_frame (payload : Json) : Except FrameError (List Nat) :=
  let payload_bytes := utf8Enc (jdump payload)
  if MAX_PAYLOAD_BYTES < payload_bytes.length then .error .payloadTooLarge
  else .ok (be32 payload_bytes.length ++ payload_bytes)

/-- Mirror of protocol.read_frame on a byte stream: read exactly four
header bytes, reject a declared length beyond the cap before reading any
body byte, then read exactly that many bytes and decode and parse them;
the unread remainder of the stream is returned alongside. -/
def read_frame (stream : List Nat) : Except FrameError (Json × List Nat) :=
  match stream with
  | b0 :: b1 :: b2 :: b3 :: rest =>
      let len := ((b0 * 256 + b1) * 256 + b2) * 256 + b3
      if MAX_PAYLOAD_BYTES < len then .error .payloadTooLarge
      else if rest.length < len then .error .incompleteRead
      else
        match utf8Dec (rest.take len) with
        | none => .error .malformedJson
        | some cs =>
            match jloads cs with
            | some j => .ok (j, rest.drop len)
            | none => .error .malformedJson
  | _ => .error .incompleteRead

/-! ## Dictionary lemmas -/

theorem dictGet_set_self (l : List (String × α)) (k : String) (v : α) :
    dictGet (dictSet l k v) k = some v := by
  induction l with
  | nil => simp [dictSet, dictGet, List.find?]
  | cons p rest ih =>
      by_cases h : p.1 = k
      · simp [dictSet, h, dictGet, List.find?]
      · simp only [dictSet, if_neg h]
        simpa [dictGet, List.find?, h] using ih

theorem dictGet_set_ne (l : List (String × α)) (k k' : String) (v : α)
    (h : k' ≠ k) : dictGet (dictSet l k v) k' = dictGet l k' := by
  induction l with
  | nil => simp [dictSet, dictGet, List.find?, Ne.symm h]
  | cons p rest ih =>
      by_cases hp : p.1 = k
      · subst hp
        simp [dictSet, dictGet, List.find?, Ne.symm h, h]
      · simp only [dictSet, if_neg hp]
        by_cases hp' : p.1 = k'
        · simp [dictGet, List.find?, hp']
        · simpa [dictGet, List.find?, hp'] using ih

theorem dictGet_del_self (l : List (String × α)) (k : String) :
    dictGet (dictDel l k) k = none := by
  induction l with
  | nil => simp [dictDel, dictGet, List.find?]
  | cons p rest ih =>
      by_cases h : p.1 = k
      · simpa [dictDel, h] using ih
      · simp only [dictDel, List.filter] at ih ⊢
        simp [h, dictGet, List.find?, ih]

theorem dictGet_del_ne (l : List (String × α)) (k k' : String) (h : k' ≠ k) :
    dictGet (dictDel l k) k' = dictGet l k' := by
  induction l with
  | nil => simp [dictDel, dictGet]
  | cons p rest ih =>
      by_cases hp : p.1 = k
      · subst hp
        simpa [dictDel, List.filter, dictGet, List.find?, Ne.symm h] using ih
      · simp only [dictDel, List.filter] at ih ⊢
        by_cases hp' : p.1 = k'
        · subst hp'
          simp [hp, dictGet, List.find?]
        · simpa [hp, hp', dictGet, List.find?] using ih

theorem dictHas_set (l : List (String × α)) (k k' : String) (v : α) :
    dictHas (dictSet l k v) k' = (decide (k' = k) || dictHas l k') := by
  by_cases h : k' = k
  · subst h; simp [dictHas, dictGet_set_self]
  · simp [dictHas, dictGet_set_ne l k k' v h, h]

theorem dictHas_del (l : List (String × α)) (k k' : String) :
    dictHas (dictDel l k) k' = (!decide (k' = k) && dictHas l k') := by
  by_cases h : k' = k
  · subst h; simp [dictHas, dictGet_del_self]
  · simp [dictHas, dictGet_del_ne l k k' h, h]

theorem contains_append_self (l : List String) (a : String) :
    (l ++ [a]).contains a = true := by simp

theorem contains_filter_ne (l : List String) (a : String) :
    (l.filter (· ≠ a)).contains a = false := by simp

/-! ## Claim theorems -/

/-- C10: unregister of an id absent from the registry returns False and
leaves the whole registry state unchanged: the instances map, the default
id and every remaining record. -/
theorem claim_C10 (st : InstanceRegistry) (instance_id : String)
    (h : st.get instance_id = none) :
    st.unregister instance_id = (false, st) := by
  unfold InstanceRegistry.unregister
  have hhas : dictHas st.instances instance_id = false := by
    simp [dictHas, InstanceRegistry.get] at h ⊢
    simp [h]
  simp [hhas]

/-- Witness for C10 at the empty registry and a concrete missing id. -/
theorem claim_C10_witness :
    InstanceRegistry.init.get "/nonexistent" = none ∧
      InstanceRegistry.init.unregister "/nonexistent" =
        (false, InstanceRegistry.init) :=
  ⟨rfl, claim_C10 InstanceRegistry.init "/nonexistent" rfl⟩

/-- C9: every inbound frame from a registered instance — STATUS,
COMMAND_RESULT, PONG, or an unrecognized type — stamps last_heartbeat
with the current time before the type dispatch, so any inbound traffic
postpones heartbeat-timeout disconnection. -/
theorem claim_C9 (inst : UnityInstance) (pending_commands : List (String × Nat))
    (pending_pong : Option Bool) (msg : UnityMsg) (now : Nat) :
    ((handle_unity_message inst pending_commands pending_pong msg now).1).last_heartbeat
      = now := by
  cases msg with
  | statusMsg s =>
      cases h : statusOfString s <;>
        simp [handle_unity_message, h, UnityInstance.update_heartbeat,
          UnityInstance.set_status]
  | commandResult rid ok =>
      by_cases h : dictHas pending_commands rid = true <;>
        simp [handle_unity_message, h, UnityInstance.update_heartbeat]
  | pong => simp [handle_unity_message, UnityInstance.update_heartbeat]
  | unknown t => simp [handle_unity_message, UnityInstance.update_heartbeat]

/-- C7 counterexample: closing the connection of a RELOADING instance is
a transition leaving RELOADING (to DISCONNECTED) that does not clear
reloading_since, refuting the claim that every such transition clears
it. -/
theorem claim_C7_counterexample :
    ((reloadingInstance.close_connection).2.status = InstanceStatus.disconnected
      ∧ ¬((reloadingInstance.close_connection).2.reloading_since = none)) := by
  constructor
  · rfl
  · decide

/-- C7 amended: set_status maintains the stamp-status equivalence (every
set_status transition into RELOADING sets reloading_since, and every
set_status transition leaving it clears it), and the heartbeat update
never touches it; close_connection however forces DISCONNECTED while
leaving reloading_since untouched, so the equivalence fails on the
connection close path. -/
theorem claim_C7 :
    (∀ (i : UnityInstance) (st : InstanceStatus) (now : Nat),
        reloadingInvariant i → reloadingInvariant (i.set_status st now))
    ∧ (∀ i : UnityInstance,
        ((i.close_connection).2).reloading_since = i.reloading_since
          ∧ ((i.close_connection).2).status = InstanceStatus.disconnected)
    ∧ (∀ (i : UnityInstance) (now : Nat),
        reloadingInvariant i → reloadingInvariant (i.update_heartbeat now)) := by
  refine ⟨?_, ?_, ?_⟩
  · intro i st now hinv
    unfold reloadingInvariant at hinv ⊢
    unfold UnityInstance.set_status
    by_cases hst : st = InstanceStatus.reloading
    · simp [hst]
    · by_cases hold : i.status = InstanceStatus.reloading
      · simp [hst, hold]
      · simp only [if_neg hst, if_neg hold]
        simp only [hold, iff_false] at hinv
        simp [hst, hinv]
  · intro i
    constructor
    · rfl
    · rfl
  · intro i now hinv
    unfold reloadingInvariant at hinv ⊢
    unfold UnityInstance.update_heartbeat
    simpa using hinv

/-- Witness for C7 at the concrete mid-reload instance. -/
theorem claim_C7_witness :
    reloadingInvariant reloadingInstance
      ∧ reloadingInvariant (reloadingInstance.set_status InstanceStatus.ready 9) :=
  have h : reloadingInvariant reloadingInstance := by
    unfold reloadingInvariant
    decide
  ⟨h, claim_C7.1 reloadingInstance InstanceStatus.ready 9 h⟩

/-- C3: a first fresh REQUEST whose execution returns a success response
is handed that response, stores it, and a second identical REQUEST within
the TTL is answered with the very same stored response without invoking
the execute path again; a failure response is returned but never stored
in the entries map. -/
theorem claim_C3 :
    (∀ (s : RequestCache) (request_id : String) (r r2 : Reply) (now1 now2 : Nat),
      dictGet s.cache request_id = none →
      dictHas s.pending request_id = false →
      r.success = true →
      now2 - now1 ≤ s.ttl_seconds →
      ∃ s1 : RequestCache,
        s.handle_request_run request_id r now1 = some (r, s1, true)
          ∧ s1.ttl_seconds = s.ttl_seconds
          ∧ s1.handle_request_run request_id r2 now2 = some (r, s1, false))
    ∧ (∀ (s : RequestCache) (request_id : String) (r : Reply) (now : Nat),
      dictGet s.cache request_id = none →
      dictHas s.pending request_id = false →
      r.success = false →
      ∃ s1 : RequestCache,
        s.handle_request_run request_id r now = some (r, s1, true)
          ∧ dictGet s1.cache request_id = none) := by
  constructor
  · intro s request_id r r2 now1 now2 hc hp hs httl
    unfold RequestCache.handle_request_run
    rw [hc]
    unfold RequestCache.handle_request_go
    rw [hp]
    simp only [Bool.false_eq_true, if_false, hs, if_true]
    refine ⟨_, rfl, rfl, ?_⟩
    have hexp : CacheEntry.is_expired ⟨r, now1⟩ s.ttl_seconds now2 = false := by
      unfold CacheEntry.is_expired
      simp only [decide_eq_false_iff_not, not_lt]
      exact httl
    simp [dictGet_set_self, hexp]
  · intro s request_id r now hc hp hs
    unfold RequestCache.handle_request_run
    rw [hc]
    unfold RequestCache.handle_request_go
    rw [hp]
    simp only [Bool.false_eq_true, if_false, hs]
    exact ⟨_, rfl, hc⟩

/-- Witness for C3: a fresh cache, a success response reused within the
TTL, and a failure response never stored. -/
theorem claim_C3_witness :
    (∃ s1 : RequestCache,
      (RequestCache.init 60).handle_request_run "r1" (Reply.response "r1" true none) 5
          = some (Reply.response "r1" true none, s1, true)
        ∧ s1.ttl_seconds = 60
        ∧ s1.handle_request_run "r1" (Reply.response "r1" true (some "other")) 50
          = some (Reply.response "r1" true none, s1, false))
    ∧ (∃ s1 : RequestCache,
      (RequestCache.init 60).handle_request_run "r9"
          (Reply.error "r9" ErrorCode.TIMEOUT "Command timed out after 30000ms") 5
          = some (Reply.error "r9" ErrorCode.TIMEOUT "Command timed out after 30000ms", s1, true)
        ∧ dictGet s1.cache "r9" = none) :=
  ⟨claim_C3.1 (RequestCache.init 60) "r1" (Reply.response "r1" true none)
      (Reply.response "r1" true (some "other")) 5 50 rfl rfl rfl (by decide),
   claim_C3.2 (RequestCache.init 60) "r9"
      (Reply.error "r9" ErrorCode.TIMEOUT "Command timed out after 30000ms") 5
      rfl rfl rfl⟩

/-- C6 counterexample: in a single uncontended run of handle_request on a
fresh id with a success response, the suspension point at the lock
acquisition of the finally block sees the id in both the entries map and
the in-flight map, refuting the claim at that suspension point. -/
theorem claim_C6_counterexample :
    ¬(∀ st ∈ RequestCache.suspension_states (RequestCache.init 60) "r1"
        (Reply.response "r1" true none) 0, st.exclusive) := by
  intro h
  have h5 := h ((RequestCache.suspension_states (RequestCache.init 60) "r1"
      (Reply.response "r1" true none) 0).get ⟨4, by decide⟩) (List.get_mem _ _ _)
  exact absurd h5 (by decide)

/-- C6 amended: on a fresh request id, the two-maps exclusivity holds at
every suspension point of handle_request except the finally-block lock
acquisition that follows caching a success response (where the id is
transiently in both maps); it holds at every suspension point of a run
whose response is a failure, and it is restored in the final state of
every run. -/
theorem claim_C6 (s : RequestCache) (request_id : String) (r : Reply) (now : Nat)
    (hex : s.exclusive) (hc : dictGet s.cache request_id = none)
    (hp : dictHas s.pending request_id = false) :
    (∀ st ∈ (RequestCache.suspension_states s request_id r now).take 4, st.exclusive)
    ∧ (r.success = false →
        ∀ st ∈ RequestCache.suspension_states s request_id r now, st.exclusive)
    ∧ (∀ (rr : Reply) (s1 : RequestCache) (ex : Bool),
        s.handle_request_run request_id r now = some (rr, s1, ex) → s1.exclusive) := by
  have hmark : ∀ k, ¬(dictHas s.cache k = true
      ∧ dictHas (dictSet s.pending request_id false) k = true) := by
    intro k hk
    rcases hk with ⟨hck, hpk⟩
    rw [dictHas_set] at hpk
    by_cases hkid : k = request_id
    · subst hkid
      simp [dictHas, hc] at hck
    · simp only [decide_eq_false hkid, Bool.false_or] at hpk
      exact hex k ⟨hck, hpk⟩
  refine ⟨?_, ?_, ?_⟩
  · intro st hst
    unfold RequestCache.suspension_states at hst
    simp only [List.take, List.mem_cons, List.not_mem_nil, or_false] at hst
    rcases hst with h | h | h | h <;> subst h
    · exact hex
    · exact hex
    · exact hmark
    · exact hmark
  · intro hfail st hst
    unfold RequestCache.suspension_states at hst
    simp only [hfail, Bool.false_eq_true, if_false, List.mem_cons,
      List.not_mem_nil, or_false] at hst
    rcases hst with h | h | h | h | h <;> subst h <;>
      first
        | exact hex
        | exact hmark
  · intro rr s1 ex hrun
    unfold RequestCache.handle_request_run at hrun
    rw [hc] at hrun
    unfold RequestCache.handle_request_go at hrun
    rw [hp] at hrun
    simp only [Bool.false_eq_true, if_false, Option.some.injEq, Prod.mk.injEq] at hrun
    rcases hrun with ⟨_, hs1, _⟩
    subst hs1
    by_cases hsucc : r.success = true
    · simp only [hsucc, if_true]
      intro k hk
      rcases hk with ⟨hck, hpk⟩
      by_cases hkid : k = request_id
      · subst hkid
        simp only [dictHas_del, decide_eq_true rfl, Bool.not_true,
          Bool.false_and] at hpk
        cases hpk
      · simp only [dictHas_del, decide_eq_false hkid, Bool.not_false, Bool.true_and,
          dictHas_set, Bool.false_or] at hpk
        simp only [dictHas_set, decide_eq_false hkid, Bool.false_or] at hck
        exact hex k ⟨hck, hpk⟩
    · simp only [Bool.not_eq_true] at hsucc
      simp only [hsucc, Bool.false_eq_true, if_false]
      intro k hk
      rcases hk with ⟨hck, hpk⟩
      by_cases hkid : k = request_id
      · subst hkid
        simp only [dictHas_del, decide_eq_true rfl, Bool.not_true,
          Bool.false_and] at hpk
        cases hpk
      · simp only [dictHas_del, decide_eq_false hkid, Bool.not_false, Bool.true_and,
          dictHas_set, Bool.false_or] at hpk
        exact hex k ⟨hck, hpk⟩

/-- Witness for C6 at a fresh empty cache and a success response. -/
theorem claim_C6_witness :
    ((RequestCache.suspension_states (RequestCache.init 60) "r1"
        (Reply.response "r1" true none) 0).take 4).Forall
      (fun st => st.exclusive) :=
  List.forall_iff_forall_mem.mpr
    ((claim_C6 (RequestCache.init 60) "r1" (Reply.response "r1" true none) 0
      (by decide) rfl rfl).1)

/-- C8: a REQUEST that resolves to a connected BUSY instance passing the
capability check is enqueued when the queue is enabled and below its cap
of ten (the record is appended and the caller waits on its future), is
answered QUEUE_FULL when the queue is enabled at the cap, and is answered
INSTANCE_BUSY when the queue is disabled. -/
theorem claim_C8 (st : InstanceRegistry) (request_id : String)
    (query : Option String) (command params : String) (timeout_ms futureToken now : Nat)
    (inst : UnityInstance)
    (hget : st.get_instance_for_request query = .ok (some inst))
    (hbusy : inst.status = InstanceStatus.busy)
    (hconn : inst.is_connected = true)
    (hcap : inst.capabilities = [] ∨ inst.capabilities.contains command = true) :
    (inst.queue_enabled = true → inst.command_queue.length < QUEUE_MAX_SIZE →
      execute_command st request_id query command params timeout_ms futureToken now =
        .queuedWait
          { inst with command_queue := inst.command_queue ++
              [⟨request_id, command, params, timeout_ms, futureToken⟩] }
          ⟨request_id, command, params, timeout_ms, futureToken⟩)
    ∧ (inst.queue_enabled = true → QUEUE_MAX_SIZE ≤ inst.command_queue.length →
      execute_command st request_id query command params timeout_ms futureToken now =
        .reply (Reply.error request_id ErrorCode.QUEUE_FULL
          ("Command queue is full (max: " ++ toString inst.queue_size
            ++ "): " ++ inst.instance_id)))
    ∧ (inst.queue_enabled = false →
      execute_command st request_id query command params timeout_ms futureToken now =
        .reply (Reply.error request_id ErrorCode.INSTANCE_BUSY
          ("Instance is busy: " ++ inst.instance_id))) := by
  have hnotrel : ¬(inst.status = InstanceStatus.reloading) := by
    rw [hbusy]; intro hcontra; cases hcontra
  have hnotdis : ¬(inst.status = InstanceStatus.disconnected) := by
    rw [hbusy]; intro hcontra; cases hcontra
  have hwait : ready_wait st query 40 0 = .ok (.proceed 0) := by
    show ready_wait st query (39 + 1) 0 = .ok (.proceed 0)
    unfold ready_wait
    rw [hget]
    simp [hnotrel, hnotdis, hconn]
  have hcapb : (!(inst.capabilities = []) && !(inst.capabilities.contains command))
      = false := by
    rcases hcap with h | h
    · simp [h]
    · simp only [h, Bool.not_true, Bool.and_false]
  refine ⟨?_, ?_, ?_⟩
  · intro hqe hlen
    have hfull : inst.is_queue_full = false := by
      unfold UnityInstance.is_queue_full
      simp only [decide_eq_false_iff_not, not_le]
      exact hlen
    unfold execute_command
    rw [hwait, hget]
    simp only [hcapb, Bool.false_eq_true, if_false, hnotrel, hbusy, if_true, hqe,
      UnityInstance.enqueue_command, Bool.not_true, hfull]
    rfl
  · intro hqe hlen
    have hfull : inst.is_queue_full = true := by
      unfold UnityInstance.is_queue_full
      simp only [decide_eq_true_eq]
      exact hlen
    unfold execute_command
    rw [hwait, hget]
    simp only [hcapb, Bool.false_eq_true, if_false, hnotrel, hbusy, if_true, hqe,
      UnityInstance.enqueue_command, Bool.not_true, hfull]
    rfl
  · intro hqd
    unfold execute_command
    rw [hwait, hget]
    simp only [hcapb, Bool.false_eq_true, if_false, hnotrel, hbusy, if_true, hqd]
    rfl

/-- Witness for C8: the three branches at three concrete registries — a
BUSY instance with an empty enabled queue, with a full enabled queue, and
with the queue disabled. -/
theorem claim_C8_witness :
    (execute_command regBusy "r2" none "echo" "" 30000 7 5 =
      .queuedWait
        { busyQueueInstance with command_queue := [⟨"r2", "echo", "", 30000, 7⟩] }
        ⟨"r2", "echo", "", 30000, 7⟩)
    ∧ (execute_command regBusyFull "r3" none "echo" "" 30000 7 5 =
      .reply (Reply.error "r3" ErrorCode.QUEUE_FULL
        ("Command queue is full (max: " ++ toString busyFullInstance.queue_size
          ++ "): " ++ busyFullInstance.instance_id)))
    ∧ (execute_command regBusyNoQueue "r4" none "echo" "" 30000 7 5 =
      .reply (Reply.error "r4" ErrorCode.INSTANCE_BUSY
        ("Instance is busy: " ++ busyNoQueueInstance.instance_id))) :=
  ⟨(claim_C8 regBusy "r2" none "echo" "" 30000 7 5 busyQueueInstance rfl rfl rfl
      (Or.inl rfl)).1 rfl (by decide),
   (claim_C8 regBusyFull "r3" none "echo" "" 30000 7 5 busyFullInstance rfl rfl rfl
      (Or.inl rfl)).2.1 rfl (by decide),
   (claim_C8 regBusyNoQueue "r4" none "echo" "" 30000 7 5 busyNoQueueInstance rfl rfl
      rfl (Or.inl rfl)).2.2 rfl⟩

/-- C2 counterexample: the connection-loop teardown applied to a registry
whose only instance is RELOADING (and the default) unregisters it on the
spot — the result holds no grace-period timer, no was_default flag, no
record, and the default id is cleared — where the claim requires the
grace-period path, retaining the default and the reconnection tracking. -/
theorem claim_C2_counterexample :
    ((unity_connection_teardown ["/p/A"] regReloading "/p/A").2.grace_period_ids = []
      ∧ (unity_connection_teardown ["/p/A"] regReloading "/p/A").2.was_default = []
      ∧ (unity_connection_teardown ["/p/A"] regReloading "/p/A").2.instances = []
      ∧ (unity_connection_teardown ["/p/A"] regReloading "/p/A").2.default_instance_id
          = none) := by
  refine ⟨rfl, rfl, ?_, ?_⟩ <;> decide

/-- C2 amended: the connection-loop teardown itself unregisters the
instance unconditionally, whatever its status (so the grace-period path
is not taken there); the grace-period semantics the claim describes do
hold for disconnect_with_grace_period, which the connection loop never
invokes: for a RELOADING instance and a positive grace window, the record
leaves the live map with the default retained and the was_default flag
recorded, a re-registration of the same id before expiry cancels the
timer, installs the new record and restores the default, and an expiry
re-elects the default from the remaining records. -/
theorem claim_C2 (tasks : List String) (st : InstanceRegistry)
    (instance_id project_name unity_version : String) (caps : List String)
    (inst : UnityInstance) (grace_ms now : Nat) (fileReloading : Bool)
    (hget : st.get instance_id = some inst)
    (hrel : inst.status = InstanceStatus.reloading)
    (hpos : 0 < grace_ms) :
    (unity_connection_teardown tasks st instance_id =
      (tasks.filter (· ≠ instance_id), (st.unregister instance_id).2))
    ∧ (let st1 := st.disconnect_with_grace_period instance_id grace_ms fileReloading
      (st1.get instance_id = none
        ∧ st1.grace_period_ids.contains instance_id = true
        ∧ dictGet st1.was_default instance_id =
            some (decide (st.default_instance_id = some instance_id))
        ∧ st1.default_instance_id = st.default_instance_id)
      ∧ ((st1.register instance_id project_name unity_version caps now).1.get
            instance_id =
          some (st1.register instance_id project_name unity_version caps now).2
        ∧ (st1.register instance_id project_name unity_version caps
            now).1.grace_period_ids.contains instance_id = false
        ∧ (st.default_instance_id = some instance_id →
            (st1.register instance_id project_name unity_version caps
              now).1.default_instance_id = some instance_id))
      ∧ (st.default_instance_id = some instance_id →
          (st1.grace_period_expire instance_id).default_instance_id =
            (match st1.instances with
             | [] => none
             | p :: _ => some p.1))) := by
  constructor
  · rfl
  · have hst1 : st.disconnect_with_grace_period instance_id grace_ms fileReloading =
        { st with
          instances := dictDel
            (dictSet st.instances instance_id ((inst.close_connection).2)) instance_id
          was_default := dictSet st.was_default instance_id
            (decide (st.default_instance_id = some instance_id))
          grace_period_ids := st.grace_period_ids ++ [instance_id] } := by
      unfold InstanceRegistry.disconnect_with_grace_period
      unfold InstanceRegistry.get at hget
      rw [hget]
      simp [hrel, hpos]
    refine ⟨⟨?_, ?_, ?_, ?_⟩, ⟨?_, ?_, ?_⟩, ?_⟩
    · rw [hst1]
      exact dictGet_del_self _ _
    · rw [hst1]
      simp
    · rw [hst1]
      exact dictGet_set_self _ _ _
    · rw [hst1]
    · unfold InstanceRegistry.register
      rw [hst1]
      simp only [contains_append_self, if_true, dictGet_set_self, Option.getD_some,
        InstanceRegistry.get]
      split
      · exact dictGet_set_self _ _ _
      · split
        · exact dictGet_set_self _ _ _
        · exact dictGet_set_self _ _ _
    · unfold InstanceRegistry.register
      rw [hst1]
      simp only [contains_append_self, if_true, dictGet_set_self, Option.getD_some]
      split
      · simp
      · split
        · simp
        · simp
    · intro hdef
      unfold InstanceRegistry.register
      rw [hst1]
      simp only [contains_append_self, if_true, dictGet_set_self, Option.getD_some,
        hdef, decide_eq_true rfl]
      simp
    · intro hdef
      unfold InstanceRegistry.grace_period_expire
      rw [hst1]
      simp only [dictGet_set_self, Option.getD_some, hdef, decide_eq_true rfl,
        Bool.true_and, decide_eq_true_eq]
      cases hD : dictDel (dictSet st.instances instance_id
          ((inst.close_connection).2)) instance_id <;>
        simp [hD]

/-- Witness for C2 at the concrete mid-reload registry, with a
re-registration at time 50 and a 2-second grace window. -/
theorem claim_C2_witness :
    (unity_connection_teardown ["/p/A"] regReloading "/p/A" =
      ((["/p/A"].filter (· ≠ "/p/A")), (regReloading.unregister "/p/A").2))
    ∧ (let st1 := regReloading.disconnect_with_grace_period "/p/A" 2000 false
      (st1.get "/p/A" = none
        ∧ st1.grace_period_ids.contains "/p/A" = true
        ∧ dictGet st1.was_default "/p/A" =
            some (decide (regReloading.default_instance_id = some "/p/A"))
        ∧ st1.default_instance_id = regReloading.default_instance_id)
      ∧ ((st1.register "/p/A" "A" "2022.3" [] 50).1.get "/p/A" =
          some (st1.register "/p/A" "A" "2022.3" [] 50).2
        ∧ (st1.register "/p/A" "A" "2022.3" []
            50).1.grace_period_ids.contains "/p/A" = false
        ∧ (regReloading.default_instance_id = some "/p/A" →
            (st1.register "/p/A" "A" "2022.3" [] 50).1.default_instance_id =
              some "/p/A"))
      ∧ (regReloading.default_instance_id = some "/p/A" →
          (st1.grace_period_expire "/p/A").default_instance_id =
            (match st1.instances with
             | [] => none
             | p :: _ => some p.1))) :=
  claim_C2 ["/p/A"] regReloading "/p/A" "A" "2022.3" [] reloadingInstance 2000 50
    false rfl rfl (by decide)

/-- C1: the ambiguity scenario of the spec — two instances whose project
name is ProjA queried by REQUEST with instance ProjA — produces no reply
frame at all: the AmbiguousInstanceError raised by the registry escapes
to the generic connection handler, which closes the socket without
writing an ERROR frame, and the protocol ErrorCode enum does not even
contain an AMBIGUOUS_INSTANCE member whose value such a frame could
carry. -/
theorem claim_C1 :
    request_frames_now regProjA "r1" (some "ProjA") "echo" "" 30000 0 0 = some []
    ∧ (∀ c : ErrorCode, ErrorCode.value c ≠ "AMBIGUOUS_INSTANCE") := by
  constructor
  · rfl
  · intro c
    cases c <;> decide

theorem filter_byId_nil (insts : List (String × UnityInstance)) (q : String)
    (hco : ∀ p ∈ insts, p.2.instance_id = p.1) (habs : ∀ p ∈ insts, p.1 ≠ q) :
    (insts.map (·.2)).filter (fun i => i.instance_id = q) = [] := by
  induction insts with
  | nil => rfl
  | cons p rest ih =>
      have h1 : p.2.instance_id = p.1 := hco p (by simp)
      have h2 : ¬(p.2.instance_id = q) := by
        rw [h1]; exact habs p (by simp)
      simp only [List.map_cons, List.filter, decide_eq_false h2]
      exact ih (fun p' hp' => hco p' (by simp [hp']))
        (fun p' hp' => habs p' (by simp [hp']))

theorem dictGet_none_keys (insts : List (String × UnityInstance)) (q : String)
    (h : dictGet insts q = none) : ∀ p ∈ insts, p.1 ≠ q := by
  intro p hp hcontra
  unfold dictGet at h
  rcases Option.map_eq_none'.mp h with hfind
  have := List.find?_eq_none.mp hfind p hp
  simp [hcontra] at this

theorem filter_byId_of_get (insts : List (String × UnityInstance)) (q : String)
    (i : UnityInstance) (hnd : (insts.map (·.1)).Nodup)
    (hco : ∀ p ∈ insts, p.2.instance_id = p.1) (hget : dictGet insts q = some i) :
    (insts.map (·.2)).filter (fun j => j.instance_id = q) = [i] := by
  induction insts with
  | nil => simp [dictGet] at hget
  | cons p rest ih =>
      have h1 : p.2.instance_id = p.1 := hco p (by simp)
      by_cases hp : p.1 = q
      · have hi : i = p.2 := by
          unfold dictGet at hget
          simp [List.find?, hp] at hget
          exact hget.symm
        subst hi
        have hrest : (rest.map (·.2)).filter (fun j => j.instance_id = q) = [] := by
          apply filter_byId_nil rest q (fun p' hp' => hco p' (by simp [hp']))
          intro p' hp' hcontra
          rw [List.map_cons, List.nodup_cons] at hnd
          exact hnd.1 (by
            rw [hp, ← hcontra]
            exact List.mem_map_of_mem (·.1) hp')
        simp only [List.map_cons, List.filter, h1, decide_eq_true hp, hrest]
      · have hpn : ¬(p.2.instance_id = q) := by rw [h1]; exact hp
        have hget' : dictGet rest q = some i := by
          unfold dictGet at hget ⊢
          simp only [List.find?, decide_eq_false hp] at hget
          exact hget
        rw [List.map_cons, List.nodup_cons] at hnd
        simp only [List.map_cons, List.filter, decide_eq_false hpn]
        exact ih hnd.2 (fun p' hp' => hco p' (by simp [hp'])) hget'

/-- C4: the resolver implements exactly the four-stage match the spec
words — instance-id exact, project-name exact, instance-id path-suffix,
project-name prefix, each stage returning the unique match, raising the
ambiguity error on several and falling through on none, with none when
all stages are empty — and the path-suffix stage and prefix stage test
exactly the spec-worded conditions. -/
theorem claim_C4 :
    (∀ (instances : List (String × UnityInstance)) (q : String),
      wfInstances instances →
      InstanceRegistry.resolve_instance instances q = resolveSpec instances q)
    ∧ (∀ iid q : String, pathSuffixMatch iid q = true ↔
        ∃ p : String, iid = p ++ "/" ++ q ∨ iid = p ++ "\\" ++ q)
    ∧ (∀ s q : String, q.data.isPrefixOf s.data = true ↔ ∃ t : String, s = q ++ t) := by
  refine ⟨?_, ?_, ?_⟩
  · intro insts q hwf
    obtain ⟨hnd, hco⟩ := hwf
    unfold InstanceRegistry.resolve_instance resolveSpec
    cases hget : dictGet insts q with
    | some i =>
        have hfil := filter_byId_of_get insts q i hnd hco hget
        simp [hfil, stageVerdict, Option.orElse]
    | none =>
        have hfil0 := filter_byId_nil insts q hco (dictGet_none_keys insts q hget)
        simp only [hfil0, stageVerdict, Option.orElse, pathSuffixMatch]
        cases hN : (insts.map (·.2)).filter (fun i => i.project_name = q) with
        | cons i2 t2 =>
            cases t2 with
            | nil => simp
            | cons j2 t2 => simp [List.length_cons]
        | nil =>
            simp only [List.length_nil, Nat.zero_lt_one.ne', if_false]
            cases hS : (insts.map (·.2)).filter (fun i =>
                ("/" ++ q).data.isSuffixOf i.instance_id.data
                  || ("\\" ++ q).data.isSuffixOf i.instance_id.data) with
            | cons i3 t3 =>
                cases t3 with
                | nil => simp
                | cons j3 t3 => simp [List.length_cons]
            | nil =>
                simp only [List.length_nil]
                cases hP : (insts.map (·.2)).filter (fun i =>
                    q.data.isPrefixOf i.project_name.data) with
                | cons i4 t4 =>
                    cases t4 with
                    | nil => simp
                    | cons j4 t4 => simp [List.length_cons]
                | nil => simp
  · intro iid q
    unfold pathSuffixMatch
    rw [Bool.or_eq_true, List.isSuffixOf_iff_suffix, List.isSuffixOf_iff_suffix]
    constructor
    · intro h
      rcases h with h | h
      · rcases h with ⟨t, ht⟩
        refine ⟨String.mk t, Or.inl (String.ext ?_)⟩
        simp only [String.data_append, List.append_assoc]
        rw [← ht]
        simp [String.data_append]
      · rcases h with ⟨t, ht⟩
        refine ⟨String.mk t, Or.inr (String.ext ?_)⟩
        simp only [String.data_append, List.append_assoc]
        rw [← ht]
        simp [String.data_append]
    · intro h
      rcases h with ⟨p, h | h⟩
      · left
        exact ⟨p.data, by rw [h]; simp [String.data_append, List.append_assoc]⟩
      · right
        exact ⟨p.data, by rw [h]; simp [String.data_append, List.append_assoc]⟩
  · intro s q
    rw [List.isPrefixOf_iff_prefix]
    constructor
    · intro h
      rcases h with ⟨t, ht⟩
      refine ⟨String.mk t, ?_⟩
      apply String.ext
      rw [String.data_append]
      exact ht.symm
    · intro h
      rcases h with ⟨t, ht⟩
      exact ⟨t.data, by rw [ht, String.data_append]⟩

/-- Witness for C4 at the two-instance ProjA registry. -/
theorem claim_C4_witness :
    wfInstances regProjA.instances
      ∧ InstanceRegistry.resolve_instance regProjA.instances "ProjA"
          = resolveSpec regProjA.instances "ProjA" :=
  have hwf : wfInstances regProjA.instances := by
    constructor
    · decide
    · decide
  ⟨hwf, claim_C4.1 regProjA.instances "ProjA" hwf⟩

/-! ## UTF-8 round trip -/

theorem utf8DecF_succ_cons (fuel b : Nat) (bs : List Nat) :
    utf8DecF (fuel + 1) (b :: bs) =
      (if b < 128 then (utf8DecF fuel bs).map (Char.ofNat b :: ·)
      else if b < 192 then none
      else if b < 224 then
        match bs with
        | b1 :: bs2 =>
            if isContByte b1 then
              let n := (b - 192) * 64 + (b1 - 128)
              if n < 128 then none
              else (utf8DecF fuel bs2).map (Char.ofNat n :: ·)
            else none
        | [] => none
      else if b < 240 then
        match bs with
        | b1 :: b2 :: bs2 =>
            if isContByte b1 && isContByte b2 then
              let n := (b - 224) * 4096 + ((b1 - 128) * 64 + (b2 - 128))
              if n < 2048 then none
              else if 55296 ≤ n && n < 57344 then none
              else (utf8DecF fuel bs2).map (Char.ofNat n :: ·)
            else none
        | _ => none
      else if b < 248 then
        match bs with
        | b1 :: b2 :: b3 :: bs2 =>
            if isContByte b1 && isContByte b2 && isContByte b3 then
              let n := (b - 240) * 262144 +
                ((b1 - 128) * 4096 + ((b2 - 128) * 64 + (b3 - 128)))
              if n < 65536 then none
              else if 1114111 < n then none
              else (utf8DecF fuel bs2).map (Char.ofNat n :: ·)
            else none
        | _ => none
      else none) := rfl

theorem utf8DecF_encChar (fuel : Nat) (c : Char) (bs : List Nat) :
    utf8DecF (fuel + 1) (utf8EncChar c ++ bs) = (utf8DecF fuel bs).map (c :: ·) := by
  have hval : c.toNat < 55296 ∨ (57343 < c.toNat ∧ c.toNat < 1114112) := by
    have h := c.valid
    unfold UInt32.isValidChar at h
    unfold Nat.isValidChar at h
    exact h
  have hofn : Char.ofNat c.toNat = c := Char.ofNat_toNat c
  unfold utf8EncChar
  by_cases h1 : c.toNat < 128
  · simp only [if_pos h1, List.cons_append, List.nil_append]
    rw [utf8DecF_succ_cons]
    simp [h1, hofn]
  · by_cases h2 : c.toNat < 2048
    · simp only [if_neg h1, if_pos h2, List.cons_append, List.nil_append]
      have e1 : ¬(192 + c.toNat / 64 < 128) := by omega
      have e2 : ¬(192 + c.toNat / 64 < 192) := by omega
      have e3 : 192 + c.toNat / 64 < 224 := by omega
      have e4 : isContByte (128 + c.toNat % 64) = true := by
        unfold isContByte
        simp only [Bool.and_eq_true, decide_eq_true_eq]
        omega
      have e5 : (192 + c.toNat / 64 - 192) * 64 + (128 + c.toNat % 64 - 128)
          = c.toNat := by omega
      have e6 : ¬(c.toNat < 128) := h1
      rw [utf8DecF_succ_cons]
      simp only [if_neg e1, if_neg e2, if_pos e3, e4, if_true, e5, if_neg e6, hofn]
    · by_cases h3 : c.toNat < 65536
      · simp only [if_neg h1, if_neg h2, if_pos h3, List.cons_append, List.nil_append]
        have e1 : ¬(224 + c.toNat / 4096 < 128) := by omega
        have e2 : ¬(224 + c.toNat / 4096 < 192) := by omega
        have e3 : ¬(224 + c.toNat / 4096 < 224) := by omega
        have e4 : 224 + c.toNat / 4096 < 240 := by omega
        have e5 : (isContByte (128 + c.toNat / 64 % 64)
            && isContByte (128 + c.toNat % 64)) = true := by
          unfold isContByte
          simp only [Bool.and_eq_true, decide_eq_true_eq]
          omega
        have e6 : (224 + c.toNat / 4096 - 224) * 4096 +
            ((128 + c.toNat / 64 % 64 - 128) * 64 + (128 + c.toNat % 64 - 128))
            = c.toNat := by omega
        have e7 : ¬(c.toNat < 2048) := h2
        have e8b : (decide (55296 ≤ c.toNat) && decide (c.toNat < 57344)) = false := by
          rcases hval with hv | hv
          · simp only [Bool.and_eq_false_iff]
            left
            simp only [decide_eq_false_iff_not, not_le]
            omega
          · simp only [Bool.and_eq_false_iff]
            right
            simp only [decide_eq_false_iff_not, not_lt]
            omega
        rw [utf8DecF_succ_cons]
        simp only [if_neg e1, if_neg e2, if_neg e3, if_pos e4, e5, if_true, e6,
          if_neg e7, e8b, Bool.false_eq_true, if_false, hofn]
      · have h4 : 65536 ≤ c.toNat ∧ c.toNat < 1114112 := by omega
        simp only [if_neg h1, if_neg h2, if_neg h3, List.cons_append, List.nil_append]
        have e1 : ¬(240 + c.toNat / 262144 < 128) := by omega
        have e2 : ¬(240 + c.toNat / 262144 < 192) := by omega
        have e3 : ¬(240 + c.toNat / 262144 < 224) := by omega
        have e4 : ¬(240 + c.toNat / 262144 < 240) := by omega
        have e5 : 240 + c.toNat / 262144 < 248 := by omega
        have e6 : (isContByte (128 + c.toNat / 4096 % 64)
            && isContByte (128 + c.toNat / 64 % 64)
            && isContByte (128 + c.toNat % 64)) = true := by
          unfold isContByte
          simp only [Bool.and_eq_true, decide_eq_true_eq]
          omega
        have e7 : (240 + c.toNat / 262144 - 240) * 262144 +
            ((128 + c.toNat / 4096 % 64 - 128) * 4096 +
              ((128 + c.toNat / 64 % 64 - 128) * 64 + (128 + c.toNat % 64 - 128)))
            = c.toNat := by omega
        have e8 : ¬(c.toNat < 65536) := h3
        have e9 : ¬(1114111 < c.toNat) := by omega
        rw [utf8DecF_succ_cons]
        simp only [if_neg e1, if_neg e2, if_neg e3, if_neg e4, if_pos e5, e6,
          if_true, e7, if_neg e8, if_neg e9, hofn]

theorem utf8DecF_enc (cs : List Char) : ∀ fuel : Nat, cs.length < fuel →
    utf8DecF fuel (utf8Enc cs) = some cs := by
  induction cs with
  | nil =>
      intro fuel hf
      cases fuel with
      | zero => omega
      | succ f => rfl
  | cons c cs ih =>
      intro fuel hf
      cases fuel with
      | zero => omega
      | succ f =>
          unfold utf8Enc
          rw [List.flatMap_cons]
          show utf8DecF (f + 1) (utf8EncChar c ++ utf8Enc cs) = _
          rw [utf8DecF_encChar, ih f (by simp only [List.length_cons] at hf; omega)]
          rfl

theorem utf8EncChar_length_pos (c : Char) : 1 ≤ (utf8EncChar c).length := by
  unfold utf8EncChar
  by_cases h1 : c.toNat < 128
  · simp [h1]
  · by_cases h2 : c.toNat < 2048
    · simp [h1, h2]
    · by_cases h3 : c.toNat < 65536
      · simp [h1, h2, h3]
      · simp [h1, h2, h3]

theorem utf8Enc_length_ge (cs : List Char) : cs.length ≤ (utf8Enc cs).length := by
  induction cs with
  | nil => simp [utf8Enc]
  | cons c cs ih =>
      unfold utf8Enc at ih ⊢
      rw [List.flatMap_cons, List.length_append, List.length_cons]
      have := utf8EncChar_length_pos c
      omega

theorem utf8Dec_enc (cs : List Char) : utf8Dec (utf8Enc cs) = some cs := by
  unfold utf8Dec
  apply utf8DecF_enc
  have := utf8Enc_length_ge cs
  omega

/-! ## Decimal rendering inverts through the parser number scan -/

theorem natCharsF_append (fuel : Nat) : ∀ (n : Nat) (acc : List Char), n < fuel →
    natCharsF fuel n acc = natCharsF fuel n [] ++ acc := by
  induction fuel with
  | zero => intro n acc h; omega
  | succ f ih =>
      intro n acc h
      by_cases h10 : n < 10
      · simp [natCharsF, h10]
      · have hdiv : n / 10 < f := by omega
        simp only [natCharsF, if_neg h10]
        rw [ih (n / 10) (decDigitChar (n % 10) :: acc) hdiv,
          ih (n / 10) [decDigitChar (n % 10)] hdiv]
        simp

theorem natCharsF_irrel (fuel : Nat) : ∀ (fuel' n : Nat) (acc : List Char),
    n < fuel → n < fuel' → natCharsF fuel n acc = natCharsF fuel' n acc := by
  induction fuel with
  | zero => intro fuel' n acc h; omega
  | succ f ih =>
      intro fuel' n acc h h'
      cases fuel' with
      | zero => omega
      | succ f' =>
          by_cases h10 : n < 10
          · simp [natCharsF, h10]
          · simp only [natCharsF, if_neg h10]
            exact ih f' (n / 10) _ (by omega) (by omega)

theorem natChars_unfold (n : Nat) :
    natCharsOnto n [] =
      (if n < 10 then [] else natCharsOnto (n / 10) []) ++ [decDigitChar (n % 10)] := by
  unfold natCharsOnto
  by_cases h10 : n < 10
  · simp [natCharsF, h10, Nat.mod_eq_of_lt h10]
  · simp only [natCharsF, if_neg h10]
    rw [natCharsF_irrel n (n / 10 + 1) (n / 10) _ (by omega) (by omega)]
    rw [natCharsF_append (n / 10 + 1) (n / 10) _ (by omega)]
    rfl

theorem decDigitChar_toNat (d : Nat) (h : d < 10) : (decDigitChar d).toNat = 48 + d := by
  interval_cases d <;> decide

theorem decDigitChar_digit (d : Nat) (h : d < 10) : isJDigit (decDigitChar d) = true := by
  interval_cases d <;> decide

theorem natChars_digits (n : Nat) : ∀ c ∈ natCharsOnto n [], isJDigit c = true := by
  induction n using Nat.strongRecOn with
  | _ n ih =>
      rw [natChars_unfold]
      intro c hc
      rw [List.mem_append] at hc
      rcases hc with hc | hc
      · by_cases h10 : n < 10
        · simp [h10] at hc
        · rw [if_neg h10] at hc
          exact ih (n / 10) (by omega) c hc
      · rw [List.mem_singleton] at hc
        subst hc
        exact decDigitChar_digit _ (Nat.mod_lt _ (by omega))

theorem natChars_ne_nil (n : Nat) : natCharsOnto n [] ≠ [] := by
  rw [natChars_unfold]
  simp

theorem natChars_head (n : Nat) :
    ∃ c t, natCharsOnto n [] = c :: t ∧ isJDigit c = true := by
  cases h : natCharsOnto n [] with
  | nil => exact absurd h (natChars_ne_nil n)
  | cons c t =>
      refine ⟨c, t, rfl, ?_⟩
      exact natChars_digits n c (h ▸ List.mem_cons_self c t)

theorem natChars_foldl (n : Nat) : digitsToNat (natCharsOnto n []) = n := by
  induction n using Nat.strongRecOn with
  | _ n ih =>
      rw [natChars_unfold]
      unfold digitsToNat
      rw [List.foldl_append]
      by_cases h10 : n < 10
      · simp only [if_pos h10, List.foldl_nil, List.foldl_cons]
        rw [decDigitChar_toNat _ (Nat.mod_lt _ (by omega))]
        omega
      · simp only [if_neg h10, List.foldl_cons, List.foldl_nil]
        have := ih (n / 10) (by omega)
        unfold digitsToNat at this
        rw [this, decDigitChar_toNat _ (Nat.mod_lt _ (by omega))]
        omega

theorem digitSpan_cons_nd (c : Char) (t : List Char) (h : isJDigit c = false) :
    digitSpan (c :: t) = ([], c :: t) := by
  simp [digitSpan, h]

theorem digitSpan_append (ds : List Char) (rest : List Char)
    (hds : ∀ c ∈ ds, isJDigit c = true) (hrest : digitSpan rest = ([], rest)) :
    digitSpan (ds ++ rest) = (ds, rest) := by
  induction ds with
  | nil => simpa using hrest
  | cons c t ih =>
      have hc : isJDigit c = true := hds c (by simp)
      have ht := ih (fun x hx => hds x (by simp [hx]))
      simp [digitSpan, hc, ht]

theorem digit_char_facts (c : Char) (h : isJDigit c = true) :
    c ≠ 'n' ∧ c ≠ 't' ∧ c ≠ 'f' ∧ c ≠ '"' ∧ c ≠ '[' ∧ c ≠ '{' ∧ c ≠ '-'
      ∧ isJWs c = false ∧ c ≠ ']' ∧ c ≠ '}' ∧ c ≠ ',' := by
  have hb : 48 ≤ c.toNat ∧ c.toNat ≤ 57 := by
    unfold isJDigit at h
    simp only [Bool.and_eq_true, decide_eq_true_eq] at h
    exact h
  refine ⟨?_, ?_, ?_, ?_, ?_, ?_, ?_, ?_, ?_, ?_, ?_⟩
  all_goals first
    | (intro heq; subst heq; revert h; decide)
    | (unfold isJWs
       simp only [Bool.or_eq_false_iff, decide_eq_false_iff_not]
       omega)

/-! ## String escaping inverts through the scanner -/

theorem hexNibble_hexDigitChar (d : Nat) (h : d < 16) :
    hexNibble (hexDigitChar d) = some d := by
  interval_cases d <;> decide

theorem hex4_dump (n : Nat) (h : n < 32) :
    hex4 '0' '0' (hexDigitChar (n / 16)) (hexDigitChar (n % 16)) = some n := by
  unfold hex4
  rw [hexNibble_hexDigitChar (n / 16) (by omega), hexNibble_hexDigitChar (n % 16) (by omega)]
  show some ((((0 : Nat) * 16 + 0) * 16 + n / 16) * 16 + n % 16) = some n
  congr 1
  omega

theorem scanStrF_escape (fuel : Nat) (c : Char) (rest : List Char) :
    scanStrF (fuel + 1) (pyEscapeChar c ++ rest)
      = (scanStrF fuel rest).map fun p => (c :: p.1, p.2) := by
  unfold pyEscapeChar
  by_cases e1 : c = '\\'
  · subst e1; simp only [if_pos rfl]; rfl
  · rw [if_neg e1]
    by_cases e2 : c = '"'
    · subst e2; simp only [if_pos rfl]; rfl
    · rw [if_neg e2]
      by_cases e3 : c.toNat = 10
      · rw [if_pos e3]
        show Option.map _ (scanStrF fuel rest) = _
        have : Char.ofNat 10 = c := by rw [← e3]; exact Char.ofNat_toNat c
        rw [this]
      · rw [if_neg e3]
        by_cases e4 : c.toNat = 13
        · rw [if_pos e4]
          show Option.map _ (scanStrF fuel rest) = _
          have : Char.ofNat 13 = c := by rw [← e4]; exact Char.ofNat_toNat c
          rw [this]
        · rw [if_neg e4]
          by_cases e5 : c.toNat = 9
          · rw [if_pos e5]
            show Option.map _ (scanStrF fuel rest) = _
            have : Char.ofNat 9 = c := by rw [← e5]; exact Char.ofNat_toNat c
            rw [this]
          · rw [if_neg e5]
            by_cases e6 : c.toNat = 8
            · rw [if_pos e6]
              show Option.map _ (scanStrF fuel rest) = _
              have : Char.ofNat 8 = c := by rw [← e6]; exact Char.ofNat_toNat c
              rw [this]
            · rw [if_neg e6]
              by_cases e7 : c.toNat = 12
              · rw [if_pos e7]
                show Option.map _ (scanStrF fuel rest) = _
                have : Char.ofNat 12 = c := by rw [← e7]; exact Char.ofNat_toNat c
                rw [this]
              · rw [if_neg e7]
                by_cases e8 : c.toNat < 32
                · rw [if_pos e8]
                  show (match hex4 '0' '0' (hexDigitChar (c.toNat / 16))
                          (hexDigitChar (c.toNat % 16)) with
                        | some n =>
                            Option.map (fun (p : List Char × List Char) =>
                              (Char.ofNat n :: p.1, p.2)) (scanStrF fuel rest)
                        | none => none) = _
                  rw [hex4_dump c.toNat e8]
                  simp only [Char.ofNat_toNat]
                · rw [if_neg e8]
                  show scanStrF (fuel + 1) (c :: rest) = _
                  conv_lhs => unfold scanStrF
                  rw [if_neg e2, if_neg e1, if_neg (by omega : ¬(c.toNat < 32))]

theorem scanStrF_dump (cs : List Char) : ∀ (fuel : Nat) (rest : List Char),
    cs.length < fuel →
    scanStrF fuel (cs.flatMap pyEscapeChar ++ '"' :: rest) = some (cs, rest) := by
  induction cs with
  | nil =>
      intro fuel rest hf
      cases fuel with
      | zero => omega
      | succ f => rfl
  | cons c cs ih =>
      intro fuel rest hf
      cases fuel with
      | zero => omega
      | succ f =>
          rw [List.flatMap_cons, List.append_assoc, scanStrF_escape,
            ih f rest (by simp only [List.length_cons] at hf; omega)]
          rfl

theorem pyEscapeChar_length_pos (c : Char) : 1 ≤ (pyEscapeChar c).length := by
  unfold pyEscapeChar
  repeat' split
  all_goals simp

theorem flatMap_esc_length_ge (cs : List Char) :
    cs.length ≤ (cs.flatMap pyEscapeChar).length := by
  induction cs with
  | nil => simp
  | cons c cs ih =>
      rw [List.flatMap_cons, List.length_append, List.length_cons]
      have := pyEscapeChar_length_pos c
      omega

theorem scanStr_dump (cs : List Char) (rest : List Char) :
    scanStr (cs.flatMap pyEscapeChar ++ '"' :: rest) = some (cs, rest) := by
  unfold scanStr
  apply scanStrF_dump
  rw [List.length_append, List.length_cons]
  have := flatMap_esc_length_ge cs
  omega

/-! ## Heads of rendered values -/

theorem dropJWs_cons_not_ws (c : Char) (t : List Char) (h : isJWs c = false) :
    dropJWs (c :: t) = c :: t := by
  simp [dropJWs, h]

theorem dropJWs_cons_ws (c : Char) (t : List Char) (h : isJWs c = true) :
    dropJWs (c :: t) = dropJWs t := by
  simp [dropJWs, h]

theorem intChars_head (i : Int) :
    ∃ c t, intChars i = c :: t
      ∧ isJWs c = false ∧ c ≠ ']' ∧ c ≠ '}' ∧ c ≠ ',' := by
  unfold intChars
  by_cases hneg : i < 0
  · exact ⟨'-', _, by rw [if_pos hneg], by decide, by decide, by decide, by decide⟩
  · rcases natChars_head i.natAbs with ⟨c, t, hct, hdg⟩
    obtain ⟨_, _, _, _, _, _, _, hws, hrb, hcb, hcm⟩ := digit_char_facts c hdg
    exact ⟨c, t, by rw [if_neg hneg, hct], hws, hrb, hcb, hcm⟩

theorem jdump_head (x : Json) :
    ∃ c t, jdump x = c :: t
      ∧ isJWs c = false ∧ c ≠ ']' ∧ c ≠ '}' ∧ c ≠ ',' := by
  cases x with
  | null => exact ⟨'n', _, rfl, by decide, by decide, by decide, by decide⟩
  | bool b =>
      cases b with
      | true => exact ⟨'t', _, rfl, by decide, by decide, by decide, by decide⟩
      | false => exact ⟨'f', _, rfl, by decide, by decide, by decide, by decide⟩
  | int i =>
      rcases intChars_head i with ⟨c, t, hct, h1, h2, h3, h4⟩
      exact ⟨c, t, hct, h1, h2, h3, h4⟩
  | str s => exact ⟨'"', _, rfl, by decide, by decide, by decide, by decide⟩
  | arr items =>
      cases items with
      | nil => exact ⟨'[', _, rfl, by decide, by decide, by decide, by decide⟩
      | cons v vs => exact ⟨'[', _, rfl, by decide, by decide, by decide, by decide⟩
  | obj members =>
      cases members with
      | nil => exact ⟨'{', _, rfl, by decide, by decide, by decide, by decide⟩
      | cons m ms => exact ⟨'{', _, rfl, by decide, by decide, by decide, by decide⟩

theorem dropJWs_jdump (x : Json) (X : List Char) :
    dropJWs (jdump x ++ X) = jdump x ++ X := by
  rcases jdump_head x with ⟨c, t, hct, hws, _, _, _⟩
  rw [hct, List.cons_append, dropJWs_cons_not_ws c _ hws]

/-! ## Parser step equations -/

theorem parseJVal_succ (fuel : Nat) (cs : List Char) :
    parseJVal (fuel + 1) cs =
      (match dropJWs cs with
      | [] => none
      | c :: r =>
          if c = 'n' then
            match r with
            | 'u' :: 'l' :: 'l' :: r2 => some (.null, r2)
            | _ => none
          else if c = 't' then
            match r with
            | 'r' :: 'u' :: 'e' :: r2 => some (.bool true, r2)
            | _ => none
          else if c = 'f' then
            match r with
            | 'a' :: 'l' :: 's' :: 'e' :: r2 => some (.bool false, r2)
            | _ => none
          else if c = '"' then
            (scanStr r).map fun p => (.str (String.mk p.1), p.2)
          else if c = '[' then
            match dropJWs r with
            | [] => none
            | c2 :: r2 =>
                if c2 = ']' then some (.arr [], r2)
                else (parseJItems fuel (c2 :: r2)).map fun p => (.arr p.1, p.2)
          else if c = '{' then
            match dropJWs r with
            | [] => none
            | c2 :: r2 =>
                if c2 = '}' then some (.obj [], r2)
                else (parseJMembers fuel (c2 :: r2)).map fun p => (.obj p.1, p.2)
          else if c = '-' then
            match digitSpan r with
            | ([], _) => none
            | (ds, r2) => some (.int (-(digitsToNat ds : Int)), r2)
          else if isJDigit c then
            match digitSpan (c :: r) with
            | (ds, r2) => some (.int (digitsToNat ds : Int), r2)
          else none) := rfl

theorem parseJItems_succ (fuel : Nat) (cs : List Char) :
    parseJItems (fuel + 1) cs =
      (match parseJVal fuel cs with
      | none => none
      | some (v, r) =>
          match dropJWs r with
          | [] => none
          | c :: r2 =>
              if c = ',' then (parseJItems fuel r2).map fun p => (v :: p.1, p.2)
              else if c = ']' then some ([v], r2)
              else none) := rfl

theorem parseJMembers_succ (fuel : Nat) (cs : List Char) :
    parseJMembers (fuel + 1) cs =
      (match dropJWs cs with
      | [] => none
      | c :: r =>
          if c = '"' then
            match scanStr r with
            | none => none
            | some (kcs, r1) =>
                match dropJWs r1 with
                | [] => none
                | c2 :: r2 =>
                    if c2 = ':' then
                      match parseJVal fuel r2 with
                      | none => none
                      | some (v, r3) =>
                          match dropJWs r3 with
                          | [] => none
                          | c3 :: r4 =>
                              if c3 = ',' then
                                (parseJMembers fuel r4).map fun p =>
                                  ((String.mk kcs, v) :: p.1, p.2)
                              else if c3 = '}' then some ([(String.mk kcs, v)], r4)
                              else none
                    else none
          else none) := rfl

theorem parseJVal_ws (fuel : Nat) (c : Char) (Y : List Char) (h : isJWs c = true) :
    parseJVal fuel (c :: Y) = parseJVal fuel Y := by
  cases fuel with
  | zero => rfl
  | succ f => rw [parseJVal_succ, parseJVal_succ, dropJWs_cons_ws c Y h]

theorem parseJItems_ws (fuel : Nat) (c : Char) (Y : List Char) (h : isJWs c = true) :
    parseJItems fuel (c :: Y) = parseJItems fuel Y := by
  cases fuel with
  | zero => rfl
  | succ f => rw [parseJItems_succ, parseJItems_succ, parseJVal_ws f c Y h]

theorem parseJVal_intChars (i : Int) (f : Nat) (rest : List Char)
    (hr : digitSpan rest = ([], rest)) :
    parseJVal (f + 1) (intChars i ++ rest) = some (.int i, rest) := by
  by_cases hneg : i < 0
  · have hd : intChars i = '-' :: natCharsOnto i.natAbs [] := by
      unfold intChars
      rw [if_pos hneg]
    rw [hd, List.cons_append]
    show (match digitSpan (natCharsOnto i.natAbs [] ++ rest) with
          | ([], _) => none
          | (ds, r2) => some (Json.int (-(digitsToNat ds : Int)), r2))
        = some (Json.int i, rest)
    rw [digitSpan_append _ rest (natChars_digits _) hr]
    rcases natChars_head i.natAbs with ⟨c0, t0, hct, _⟩
    rw [hct]
    show some (Json.int (-(digitsToNat (c0 :: t0) : Int)), rest)
        = some (Json.int i, rest)
    rw [← hct, natChars_foldl]
    have hv : (-(i.natAbs : Int)) = i := by omega
    rw [hv]
  · rcases natChars_head i.natAbs with ⟨c0, t0, hct, hdg⟩
    obtain ⟨f1, f2, f3, f4, f5, f6, f7, fws, _, _, _⟩ := digit_char_facts c0 hdg
    have hd : intChars i = c0 :: t0 := by
      unfold intChars
      rw [if_neg hneg, hct]
    rw [hd, List.cons_append, parseJVal_succ, dropJWs_cons_not_ws _ _ fws]
    simp only [if_neg f1, if_neg f2, if_neg f3, if_neg f4, if_neg f5, if_neg f6,
      if_neg f7, hdg, if_true]
    have hsp : digitSpan (c0 :: (t0 ++ rest)) = (c0 :: t0, rest) := by
      rw [show c0 :: (t0 ++ rest) = (c0 :: t0) ++ rest from rfl, ← hct]
      exact digitSpan_append _ _ (natChars_digits _) hr
    rw [hsp]
    show some (Json.int (digitsToNat (c0 :: t0) : Int), rest)
        = some (Json.int i, rest)
    rw [← hct, natChars_foldl]
    have hv : ((i.natAbs : Int)) = i := by omega
    rw [hv]

theorem parseJVal_dumpStr (s : String) (f : Nat) (rest : List Char) :
    parseJVal (f + 1) (dumpStrChars s ++ rest) = some (.str s, rest) := by
  have hd : dumpStrChars s ++ rest
      = '"' :: (s.data.flatMap pyEscapeChar ++ '"' :: rest) := by
    unfold dumpStrChars
    simp [List.append_assoc]
  rw [hd]
  show (scanStr (s.data.flatMap pyEscapeChar ++ '"' :: rest)).map
      (fun p => (Json.str (String.mk p.1), p.2)) = some (Json.str s, rest)
  rw [scanStr_dump]
  rfl

theorem parseJMembers_ws (fuel : Nat) (c : Char) (Y : List Char) (h : isJWs c = true) :
    parseJMembers fuel (c :: Y) = parseJMembers fuel Y := by
  cases fuel with
  | zero => rfl
  | succ f => rw [parseJMembers_succ, parseJMembers_succ, dropJWs_cons_ws c Y h]

mutual

theorem rt_val : ∀ (x : Json) (fuel : Nat) (rest : List Char),
    (jdump x).length < fuel → digitSpan rest = ([], rest) →
    parseJVal fuel (jdump x ++ rest) = some (x, rest)
  | .null, fuel, rest, hf, _ => by
      cases fuel with
      | zero => exact absurd hf (Nat.not_lt_zero _)
      | succ f => rfl
  | .bool true, fuel, rest, hf, _ => by
      cases fuel with
      | zero => exact absurd hf (Nat.not_lt_zero _)
      | succ f => rfl
  | .bool false, fuel, rest, hf, _ => by
      cases fuel with
      | zero => exact absurd hf (Nat.not_lt_zero _)
      | succ f => rfl
  | .int i, fuel, rest, hf, hr => by
      cases fuel with
      | zero => exact absurd hf (Nat.not_lt_zero _)
      | succ f => exact parseJVal_intChars i f rest hr
  | .str s, fuel, rest, hf, _ => by
      cases fuel with
      | zero => exact absurd hf (Nat.not_lt_zero _)
      | succ f => exact parseJVal_dumpStr s f rest
  | .arr [], fuel, rest, hf, _ => by
      cases fuel with
      | zero => exact absurd hf (Nat.not_lt_zero _)
      | succ f => rfl
  | .arr (v :: vs), fuel, rest, hf, _ => by
      cases fuel with
      | zero => exact absurd hf (Nat.not_lt_zero _)
      | succ f =>
          have hlen : (jdump (Json.arr (v :: vs))).length
              = (jdump v).length + (jdumpArrRest vs).length + 2 := by
            show ('[' :: (jdump v ++ (jdumpArrRest vs ++ [']']))).length = _
            simp only [List.length_cons, List.length_append, List.length_nil]
            omega
          have hsplit : (jdump v ++ jdumpArrRest vs).length
              = (jdump v).length + (jdumpArrRest vs).length :=
            List.length_append _ _
          have hb : jdump (Json.arr (v :: vs)) ++ rest
              = '[' :: ((jdump v ++ jdumpArrRest vs) ++ ']' :: rest) := by
            show ('[' :: (jdump v ++ (jdumpArrRest vs ++ [']']))) ++ rest = _
            simp [List.append_assoc]
          rw [hb]
          show (match dropJWs ((jdump v ++ jdumpArrRest vs) ++ ']' :: rest) with
                | [] => none
                | c2 :: r2 =>
                    if c2 = ']' then some (Json.arr [], r2)
                    else (parseJItems f (c2 :: r2)).map fun p => (Json.arr p.1, p.2))
              = some (Json.arr (v :: vs), rest)
          rw [List.append_assoc, dropJWs_jdump, ← List.append_assoc]
          rcases jdump_head v with ⟨c0, t0, hct, _, hrb, _, _⟩
          rw [hct, List.cons_append, List.cons_append]
          show (if c0 = ']' then some (Json.arr [], (t0 ++ jdumpArrRest vs) ++ ']' :: rest)
                else (parseJItems f (c0 :: ((t0 ++ jdumpArrRest vs) ++ ']' :: rest))).map
                  fun p => (Json.arr p.1, p.2))
              = some (Json.arr (v :: vs), rest)
          rw [if_neg hrb]
          have hback : c0 :: ((t0 ++ jdumpArrRest vs) ++ ']' :: rest)
              = (jdump v ++ jdumpArrRest vs) ++ ']' :: rest := by
            rw [hct]
            simp [List.append_assoc]
          rw [hback, rt_items v vs f rest (by omega)]
          rfl
  | .obj [], fuel, rest, hf, _ => by
      cases fuel with
      | zero => exact absurd hf (Nat.not_lt_zero _)
      | succ f => rfl
  | .obj (m :: ms), fuel, rest, hf, _ => by
      cases fuel with
      | zero => exact absurd hf (Nat.not_lt_zero _)
      | succ f =>
          have hlen : (jdump (Json.obj (m :: ms))).length
              = (jdumpMember m).length + (jdumpObjRest ms).length + 2 := by
            show ('{' :: (jdumpMember m ++ (jdumpObjRest ms ++ ['}']))).length = _
            simp only [List.length_cons, List.length_append, List.length_nil]
            omega
          have hsplit : (jdumpMember m ++ jdumpObjRest ms).length
              = (jdumpMember m).length + (jdumpObjRest ms).length :=
            List.length_append _ _
          have hb : jdump (Json.obj (m :: ms)) ++ rest
              = '{' :: ((jdumpMember m ++ jdumpObjRest ms) ++ '}' :: rest) := by
            show ('{' :: (jdumpMember m ++ (jdumpObjRest ms ++ ['}']))) ++ rest = _
            simp [List.append_assoc]
          rw [hb]
          show (match dropJWs ((jdumpMember m ++ jdumpObjRest ms) ++ '}' :: rest) with
                | [] => none
                | c2 :: r2 =>
                    if c2 = '}' then some (Json.obj [], r2)
                    else (parseJMembers f (c2 :: r2)).map fun p => (Json.obj p.1, p.2))
              = some (Json.obj (m :: ms), rest)
          have hmhead : ∃ t1, jdumpMember m = '"' :: t1 := by
            rcases m with ⟨k, v⟩
            exact ⟨_, rfl⟩
          rcases hmhead with ⟨t1, hm1⟩
          rw [hm1, List.cons_append, List.cons_append,
            dropJWs_cons_not_ws _ _ (by decide)]
          show (if ('"' : Char) = '}' then
                  some (Json.obj [], (t1 ++ jdumpObjRest ms) ++ '}' :: rest)
                else (parseJMembers f
                    ('"' :: ((t1 ++ jdumpObjRest ms) ++ '}' :: rest))).map
                  fun p => (Json.obj p.1, p.2))
              = some (Json.obj (m :: ms), rest)
          rw [if_neg (by decide)]
          have hback : '"' :: ((t1 ++ jdumpObjRest ms) ++ '}' :: rest)
              = (jdumpMember m ++ jdumpObjRest ms) ++ '}' :: rest := by
            rw [hm1]
            simp [List.append_assoc]
          rw [hback, rt_members m ms f rest (by omega)]
          rfl

theorem rt_items : ∀ (v : Json) (vs : List Json) (fuel : Nat) (rest : List Char),
    (jdump v ++ jdumpArrRest vs).length + 1 < fuel →
    parseJItems fuel ((jdump v ++ jdumpArrRest vs) ++ ']' :: rest)
      = some (v :: vs, rest)
  | v, [], fuel, rest, hf => by
      cases fuel with
      | zero => exact absurd hf (Nat.not_lt_zero _)
      | succ f =>
          have hsp : (jdump v ++ jdumpArrRest []).length = (jdump v).length := by
            show (jdump v ++ []).length = _
            simp
          have hx : (jdump v ++ jdumpArrRest []) ++ ']' :: rest
              = jdump v ++ ']' :: rest := by
            show (jdump v ++ []) ++ ']' :: rest = _
            simp
          rw [hx, parseJItems_succ,
            rt_val v f (']' :: rest) (by omega) (digitSpan_cons_nd _ _ (by decide))]
          show (match dropJWs (']' :: rest) with
                | [] => none
                | c :: r2 =>
                    if c = ',' then (parseJItems f r2).map fun p => (v :: p.1, p.2)
                    else if c = ']' then some ([v], r2)
                    else none) = some ([v], rest)
          rw [dropJWs_cons_not_ws _ _ (by decide)]
          rfl
  | v, v2 :: vs2, fuel, rest, hf => by
      cases fuel with
      | zero => exact absurd hf (Nat.not_lt_zero _)
      | succ f =>
          have hsp : (jdump v ++ jdumpArrRest (v2 :: vs2)).length
              = (jdump v).length + (jdump v2 ++ jdumpArrRest vs2).length + 2 := by
            show (jdump v ++ (',' :: ' ' :: (jdump v2 ++ jdumpArrRest vs2))).length = _
            simp only [List.length_append, List.length_cons]
            omega
          have hb : (jdump v ++ jdumpArrRest (v2 :: vs2)) ++ ']' :: rest
              = jdump v ++ (',' :: ' '
                  :: ((jdump v2 ++ jdumpArrRest vs2) ++ ']' :: rest)) := by
            show (jdump v ++ (',' :: ' ' :: (jdump v2 ++ jdumpArrRest vs2)))
                ++ ']' :: rest = _
            simp [List.append_assoc]
          rw [hb, parseJItems_succ,
            rt_val v f _ (by omega) (digitSpan_cons_nd _ _ (by decide))]
          show (match dropJWs (',' :: ' '
                  :: ((jdump v2 ++ jdumpArrRest vs2) ++ ']' :: rest)) with
                | [] => none
                | c :: r2 =>
                    if c = ',' then (parseJItems f r2).map fun p => (v :: p.1, p.2)
                    else if c = ']' then some ([v], r2)
                    else none) = some (v :: v2 :: vs2, rest)
          rw [dropJWs_cons_not_ws _ _ (by decide)]
          show (parseJItems f (' ' :: ((jdump v2 ++ jdumpArrRest vs2) ++ ']' :: rest))).map
              (fun p => (v :: p.1, p.2)) = some (v :: v2 :: vs2, rest)
          rw [parseJItems_ws f ' ' _ (by decide),
            rt_items v2 vs2 f rest (by omega)]
          rfl

theorem rt_members : ∀ (m : String × Json) (ms : List (String × Json))
    (fuel : Nat) (rest : List Char),
    (jdumpMember m ++ jdumpObjRest ms).length + 1 < fuel →
    parseJMembers fuel ((jdumpMember m ++ jdumpObjRest ms) ++ '}' :: rest)
      = some (m :: ms, rest)
  | (k, v), [], fuel, rest, hf => by
      cases fuel with
      | zero => exact absurd hf (Nat.not_lt_zero _)
      | succ f =>
          have hsp : (jdumpMember (k, v) ++ jdumpObjRest []).length
              = (dumpStrChars k).length + (jdump v).length + 2 := by
            show ((dumpStrChars k ++ (':' :: ' ' :: jdump v)) ++ []).length = _
            simp only [List.append_nil, List.length_append, List.length_cons]
            omega
          have hb : (jdumpMember (k, v) ++ jdumpObjRest []) ++ '}' :: rest
              = '"' :: (k.data.flatMap pyEscapeChar
                  ++ '"' :: (':' :: ' ' :: (jdump v ++ '}' :: rest))) := by
            show ((dumpStrChars k ++ (':' :: ' ' :: jdump v)) ++ []) ++ '}' :: rest = _
            unfold dumpStrChars
            simp [List.append_assoc]
          rw [hb, parseJMembers_succ, dropJWs_cons_not_ws _ _ (by decide)]
          show (match scanStr (k.data.flatMap pyEscapeChar
                  ++ '"' :: (':' :: ' ' :: (jdump v ++ '}' :: rest))) with
                | none => none
                | some (kcs, r1) =>
                    match dropJWs r1 with
                    | [] => none
                    | c2 :: r2 =>
                        if c2 = ':' then
                          match parseJVal f r2 with
                          | none => none
                          | some (jv, r3) =>
                              match dropJWs r3 with
                              | [] => none
                              | c3 :: r4 =>
                                  if c3 = ',' then
                                    (parseJMembers f r4).map fun p =>
                                      ((String.mk kcs, jv) :: p.1, p.2)
                                  else if c3 = '}' then
                                    some ([(String.mk kcs, jv)], r4)
                                  else none
                        else none)
              = some ([(k, v)], rest)
          rw [scanStr_dump]
          show (match dropJWs (':' :: ' ' :: (jdump v ++ '}' :: rest)) with
                | [] => none
                | c2 :: r2 =>
                    if c2 = ':' then
                      match parseJVal f r2 with
                      | none => none
                      | some (jv, r3) =>
                          match dropJWs r3 with
                          | [] => none
                          | c3 :: r4 =>
                              if c3 = ',' then
                                (parseJMembers f r4).map fun p =>
                                  ((String.mk k.data, jv) :: p.1, p.2)
                              else if c3 = '}' then
                                some ([(String.mk k.data, jv)], r4)
                              else none
                    else none)
              = some ([(k, v)], rest)
          rw [dropJWs_cons_not_ws _ _ (by decide)]
          show (match parseJVal f (' ' :: (jdump v ++ '}' :: rest)) with
                | none => none
                | some (jv, r3) =>
                    match dropJWs r3 with
                    | [] => none
                    | c3 :: r4 =>
                        if c3 = ',' then
                          (parseJMembers f r4).map fun p =>
                            ((String.mk k.data, jv) :: p.1, p.2)
                        else if c3 = '}' then some ([(String.mk k.data, jv)], r4)
                        else none)
              = some ([(k, v)], rest)
          rw [parseJVal_ws f ' ' _ (by decide),
            rt_val v f ('}' :: rest) (by omega) (digitSpan_cons_nd _ _ (by decide))]
          show (match dropJWs ('}' :: rest) with
                | [] => none
                | c3 :: r4 =>
                    if c3 = ',' then
                      (parseJMembers f r4).map fun p =>
                        ((String.mk k.data, v) :: p.1, p.2)
                    else if c3 = '}' then some ([(String.mk k.data, v)], r4)
                    else none)
              = some ([(k, v)], rest)
          rw [dropJWs_cons_not_ws _ _ (by decide)]
          rfl
  | (k, v), m2 :: ms2, fuel, rest, hf => by
      cases fuel with
      | zero => exact absurd hf (Nat.not_lt_zero _)
      | succ f =>
          have hsp : (jdumpMember (k, v) ++ jdumpObjRest (m2 :: ms2)).length
              = (dumpStrChars k).length + (jdump v).length
                + (jdumpMember m2 ++ jdumpObjRest ms2).length + 4 := by
            show ((dumpStrChars k ++ (':' :: ' ' :: jdump v))
                ++ (',' :: ' ' :: (jdumpMember m2 ++ jdumpObjRest ms2))).length = _
            simp only [List.length_append, List.length_cons]
            omega
          have hb : (jdumpMember (k, v) ++ jdumpObjRest (m2 :: ms2)) ++ '}' :: rest
              = '"' :: (k.data.flatMap pyEscapeChar
                  ++ '"' :: (':' :: ' ' :: (jdump v ++ ',' :: ' '
                    :: ((jdumpMember m2 ++ jdumpObjRest ms2) ++ '}' :: rest)))) := by
            show ((dumpStrChars k ++ (':' :: ' ' :: jdump v))
                ++ (',' :: ' ' :: (jdumpMember m2 ++ jdumpObjRest ms2)))
                ++ '}' :: rest = _
            unfold dumpStrChars
            simp [List.append_assoc]
          rw [hb, parseJMembers_succ, dropJWs_cons_not_ws _ _ (by decide)]
          show (match scanStr (k.data.flatMap pyEscapeChar
                  ++ '"' :: (':' :: ' ' :: (jdump v ++ ',' :: ' '
                    :: ((jdumpMember m2 ++ jdumpObjRest ms2) ++ '}' :: rest)))) with
                | none => none
                | some (kcs, r1) =>
                    match dropJWs r1 with
                    | [] => none
                    | c2 :: r2 =>
                        if c2 = ':' then
                          match parseJVal f r2 with
                          | none => none
                          | some (jv, r3) =>
                              match dropJWs r3 with
                              | [] => none
                              | c3 :: r4 =>
                                  if c3 = ',' then
                                    (parseJMembers f r4).map fun p =>
                                      ((String.mk kcs, jv) :: p.1, p.2)
                                  else if c3 = '}' then
                                    some ([(String.mk kcs, jv)], r4)
                                  else none
                        else none)
              = some ((k, v) :: m2 :: ms2, rest)
          rw [scanStr_dump]
          show (match dropJWs (':' :: ' ' :: (jdump v ++ ',' :: ' '
                  :: ((jdumpMember m2 ++ jdumpObjRest ms2) ++ '}' :: rest))) with
                | [] => none
                | c2 :: r2 =>
                    if c2 = ':' then
                      match parseJVal f r2 with
                      | none => none
                      | some (jv, r3) =>
                          match dropJWs r3 with
                          | [] => none
                          | c3 :: r4 =>
                              if c3 = ',' then
                                (parseJMembers f r4).map fun p =>
                                  ((String.mk k.data, jv) :: p.1, p.2)
                              else if c3 = '}' then
                                some ([(String.mk k.data, jv)], r4)
                              else none
                    else none)
              = some ((k, v) :: m2 :: ms2, rest)
          rw [dropJWs_cons_not_ws _ _ (by decide)]
          show (match parseJVal f (' ' :: (jdump v ++ ',' :: ' '
                  :: ((jdumpMember m2 ++ jdumpObjRest ms2) ++ '}' :: rest))) with
                | none => none
                | some (jv, r3) =>
                    match dropJWs r3 with
                    | [] => none
                    | c3 :: r4 =>
                        if c3 = ',' then
                          (parseJMembers f r4).map fun p =>
                            ((String.mk k.data, jv) :: p.1, p.2)
                        else if c3 = '}' then some ([(String.mk k.data, jv)], r4)
                        else none)
              = some ((k, v) :: m2 :: ms2, rest)
          rw [parseJVal_ws f ' ' _ (by decide),
            rt_val v f _ (by omega) (digitSpan_cons_nd _ _ (by decide))]
          show (match dropJWs (',' :: ' '
                  :: ((jdumpMember m2 ++ jdumpObjRest ms2) ++ '}' :: rest)) with
                | [] => none
                | c3 :: r4 =>
                    if c3 = ',' then
                      (parseJMembers f r4).map fun p =>
                        ((String.mk k.data, v) :: p.1, p.2)
                    else if c3 = '}' then some ([(String.mk k.data, v)], r4)
                    else none)
              = some ((k, v) :: m2 :: ms2, rest)
          rw [dropJWs_cons_not_ws _ _ (by decide)]
          show (parseJMembers f (' '
                  :: ((jdumpMember m2 ++ jdumpObjRest ms2) ++ '}' :: rest))).map
              (fun p => ((String.mk k.data, v) :: p.1, p.2))
              = some ((k, v) :: m2 :: ms2, rest)
          rw [parseJMembers_ws f ' ' _ (by decide),
            rt_members m2 ms2 f rest (by omega)]
          rfl

end

theorem jloads_dump (x : Json) : jloads (jdump x) = some x := by
  unfold jloads
  have h0 : digitSpan ([] : List Char) = ([], []) := rfl
  have h1 := rt_val x ((jdump x).length + 1) [] (Nat.lt_succ_self _) h0
  rw [List.append_nil] at h1
  rw [h1]
  rfl

/-! ## Framing lemmas -/

theorem read_frame_cons (b0 b1 b2 b3 : Nat) (t : List Nat) :
    read_frame (b0 :: b1 :: b2 :: b3 :: t)
      = (if MAX_PAYLOAD_BYTES < ((b0 * 256 + b1) * 256 + b2) * 256 + b3 then
           Except.error FrameError.payloadTooLarge
         else if t.length < ((b0 * 256 + b1) * 256 + b2) * 256 + b3 then
           Except.error FrameError.incompleteRead
         else
           match utf8Dec (t.take (((b0 * 256 + b1) * 256 + b2) * 256 + b3)) with
           | none => Except.error FrameError.malformedJson
           | some cs =>
               match jloads cs with
               | some j => Except.ok (j, t.drop (((b0 * 256 + b1) * 256 + b2) * 256 + b3))
               | none => Except.error FrameError.malformedJson) := rfl

theorem write_frame_ok (x : Json)
    (h : (utf8Enc (jdump x)).length ≤ MAX_PAYLOAD_BYTES) :
    write_frame x
      = Except.ok (be32 (utf8Enc (jdump x)).length ++ utf8Enc (jdump x)) := by
  show (if MAX_PAYLOAD_BYTES < (utf8Enc (jdump x)).length then
          Except.error FrameError.payloadTooLarge
        else Except.ok (be32 (utf8Enc (jdump x)).length ++ utf8Enc (jdump x)))
      = Except.ok (be32 (utf8Enc (jdump x)).length ++ utf8Enc (jdump x))
  rw [if_neg (by omega)]

theorem write_frame_err (x : Json)
    (h : MAX_PAYLOAD_BYTES < (utf8Enc (jdump x)).length) :
    write_frame x = Except.error FrameError.payloadTooLarge := by
  show (if MAX_PAYLOAD_BYTES < (utf8Enc (jdump x)).length then
          Except.error FrameError.payloadTooLarge
        else Except.ok (be32 (utf8Enc (jdump x)).length ++ utf8Enc (jdump x)))
      = Except.error FrameError.payloadTooLarge
  rw [if_pos h]

theorem read_frame_ok (L : Nat) (body rest : List Nat)
    (hb : body.length = L) (hmax : L ≤ MAX_PAYLOAD_BYTES)
    (x : Json) (hdec : utf8Dec body = some (jdump x)) :
    read_frame (be32 L ++ (body ++ rest)) = Except.ok (x, rest) := by
  have hstream : be32 L ++ (body ++ rest)
      = L / 16777216 % 256 :: L / 65536 % 256 :: L / 256 % 256 :: L % 256
        :: (body ++ rest) := rfl
  have hM : MAX_PAYLOAD_BYTES = 16777216 := rfl
  have hL : ((L / 16777216 % 256 * 256 + L / 65536 % 256) * 256
        + L / 256 % 256) * 256 + L % 256 = L := by omega
  have hlenBR : (body ++ rest).length = L + rest.length := by
    rw [List.length_append, hb]
  rw [hstream, read_frame_cons, hL, if_neg (by omega), if_neg (by omega),
    ← hb, List.take_left, List.drop_left, hdec]
  show (match jloads (jdump x) with
        | some j => Except.ok (j, rest)
        | none => Except.error FrameError.malformedJson)
      = Except.ok (x, rest)
  rw [jloads_dump]

theorem flatMap_esc_replicate (n : Nat) :
    (List.replicate n 'a').flatMap pyEscapeChar = List.replicate n 'a' := by
  induction n with
  | zero => rfl
  | succ k ih =>
      rw [List.replicate_succ, List.flatMap_cons, ih]
      rfl

theorem utf8Enc_cons (c : Char) (cs : List Char) :
    utf8Enc (c :: cs) = utf8EncChar c ++ utf8Enc cs := by
  simp [utf8Enc]

theorem utf8Enc_append_eq (a b : List Char) :
    utf8Enc (a ++ b) = utf8Enc a ++ utf8Enc b := by
  simp [utf8Enc]

theorem utf8Enc_repl_len (m : Nat) :
    (utf8Enc (List.replicate m 'a')).length = m := by
  induction m with
  | zero => rfl
  | succ k ih =>
      rw [List.replicate_succ, utf8Enc_cons, List.length_append, ih]
      have h1 : (utf8EncChar 'a').length = 1 := rfl
      omega

theorem utf8Enc_len_str_repl (n : Nat) :
    (utf8Enc (jdump (Json.str (String.mk (List.replicate n 'a'))))).length
      = n + 2 := by
  show (utf8Enc ('"' :: ((List.replicate n 'a').flatMap pyEscapeChar ++ ['"']))).length
      = n + 2
  rw [flatMap_esc_replicate, utf8Enc_cons, utf8Enc_append_eq,
    List.length_append, List.length_append, utf8Enc_repl_len]
  have h1 : (utf8EncChar '"').length = 1 := rfl
  have h2 : (utf8Enc ['"']).length = 1 := rfl
  omega

/-- C5: for every JSON object payload whose UTF-8 encoding is at most
16 MiB, write_frame emits the 4-byte big-endian length header followed by
the body, and read_frame applied to that frame (with any trailing stream)
returns the original object and the untouched remainder; a payload whose
encoding exceeds 16 MiB makes write_frame fail with the payload-too-large
error before emitting anything, and a received header that declares a
length beyond 16 MiB makes read_frame fail with the payload-too-large
error regardless of the bytes that follow, i.e. before consuming any of
the body. -/
theorem claim_C5 :
    (∀ (ms : List (String × Json)) (rest : List Nat),
        (utf8Enc (jdump (Json.obj ms))).length ≤ MAX_PAYLOAD_BYTES →
        write_frame (Json.obj ms)
            = Except.ok (be32 (utf8Enc (jdump (Json.obj ms))).length
                ++ utf8Enc (jdump (Json.obj ms)))
          ∧ read_frame ((be32 (utf8Enc (jdump (Json.obj ms))).length
                ++ utf8Enc (jdump (Json.obj ms))) ++ rest)
            = Except.ok (Json.obj ms, rest))
    ∧ (∀ x : Json, MAX_PAYLOAD_BYTES < (utf8Enc (jdump x)).length →
        write_frame x = Except.error FrameError.payloadTooLarge)
    ∧ (∀ (b0 b1 b2 b3 : Nat) (t : List Nat),
        MAX_PAYLOAD_BYTES < ((b0 * 256 + b1) * 256 + b2) * 256 + b3 →
        read_frame (b0 :: b1 :: b2 :: b3 :: t)
          = Except.error FrameError.payloadTooLarge) := by
  refine ⟨?_, ?_, ?_⟩
  · intro ms rest h
    refine ⟨write_frame_ok _ h, ?_⟩
    rw [List.append_assoc]
    exact read_frame_ok _ _ _ rfl h (Json.obj ms) (utf8Dec_enc _)
  · intro x h
    exact write_frame_err x h
  · intro b0 b1 b2 b3 t h
    rw [read_frame_cons, if_pos h]

/-- Witness for C5: the round trip evaluated on the concrete object
{"a": 1} with a trailing byte, an oversize string payload rejected on
write, and an oversize declared length rejected on read. -/
theorem claim_C5_witness :
    (write_frame (Json.obj [("a", Json.int 1)])
        = Except.ok (be32 (utf8Enc (jdump (Json.obj [("a", Json.int 1)]))).length
            ++ utf8Enc (jdump (Json.obj [("a", Json.int 1)])))
      ∧ read_frame ((be32 (utf8Enc (jdump (Json.obj [("a", Json.int 1)]))).length
            ++ utf8Enc (jdump (Json.obj [("a", Json.int 1)]))) ++ [7])
        = Except.ok (Json.obj [("a", Json.int 1)], [7]))
    ∧ write_frame (Json.str (String.mk
          (List.replicate (MAX_PAYLOAD_BYTES + 1) 'a')))
        = Except.error FrameError.payloadTooLarge
    ∧ read_frame [2, 0, 0, 0] = Except.error FrameError.payloadTooLarge :=
  ⟨claim_C5.1 [("a", Json.int 1)] [7] (by decide),
   claim_C5.2.1 _ (by rw [utf8Enc_len_str_repl]; omega),
   claim_C5.2.2 2 0 0 0 [] (by decide)⟩

end Relay